import Mathlib

/-! Shairport RTP receive path (`rtp.c`).

A shallow embedding of `rtp.c`: the resend-request encoder, the datagram
receive loop, the stream frame reader and the session lifecycle, followed by
theorems about them.

Conventions of the embedding

* C `int` and `ssize_t` values are `Int`; bytes and 16-bit values are `Nat`
  and every conversion to a narrower unsigned type is an explicit `%`.
* Memory around a packet buffer is a map from byte offsets (relative to the
  start of the buffer, hence `Int`) to bytes.
* Calls to external collaborators (`debug`, `warn`, `player_put_packet`,
  `player_put_tcp_packet`, `sendto`, the pthread calls, `close`,
  `config.output->stop`) are recorded, in program order, as a list of
  `Event`s.
* `die` does not return: a function that reaches it yields `Outcome.died`
  together with the state at that point.
-/

namespace Shairport

/-! ## Data model -/

/-- A socket address (`SOCKADDR`): address family, host address, port. -/
structure SockAddr where
  family : Nat
  addr : Nat
  port : Nat
deriving DecidableEq, Repr

/-- Calls made to external collaborators. For `debug` and `warn` the level
and the format string (less its trailing newline) are recorded, the variadic
arguments are not. `put_packet` is `player_put_packet(seqno, pktp, plen)` with
the `plen` bytes found at `pktp`; `put_tcp_packet` is
`player_put_tcp_packet(packet + 12, len - 12)` with the bytes found there
(none when the length is not positive). -/
inductive Event where
  | debug (level : Nat) (fmt : String)
  | warn (fmt : String)
  | put_packet (seqno : Nat) (payload : List Nat) (plen : Int)
  | put_tcp_packet (payload : List Nat) (len : Int)
  | sendto (sock : Int) (bytes : List Nat) (dest : SockAddr)
  | getaddrinfo
  | socket (stream : Bool)
  | bind (port : Nat)
  | getsockname
  | pthread_create (tcp : Bool)
  | pthread_kill
  | pthread_join
  | close_new_sock
  | close_sock
  | output_stop
deriving DecidableEq, Repr

/-- The file-scope variables of `rtp.c` (`running`, `please_shutdown`,
`rtp_client`, `sock`, `rtp_thread`) and the calls made so far.
`rtp_thread` is `none` until a thread has been created, then `some tcp`
where `tcp` tells which receiver routine the thread runs. -/
structure RtpState where
  running : Int
  please_shutdown : Int
  rtp_client : SockAddr
  sock : Int
  rtp_thread : Option Bool
  trace : List Event
deriving DecidableEq, Repr

/-- Append one external call to the trace. -/
def RtpState.emit (s : RtpState) (e : Event) : RtpState :=
  { s with trace := s.trace ++ [e] }

/-- Result of a public entry point: either it returns a value, or it reaches
`die`; both carry the state reached. -/
inductive Outcome (α : Type) where
  | returned (ret : α) (s : RtpState)
  | died (msg : String) (s : RtpState)
deriving DecidableEq, Repr

/-- The state an outcome carries. -/
def Outcome.state {α : Type} : Outcome α → RtpState
  | .returned _ s => s
  | .died _ s => s

/-- Whether the entry point reached `die`. -/
def Outcome.aborted {α : Type} : Outcome α → Bool
  | .returned _ _ => false
  | .died _ _ => true

/-- The datagrams handed to `sendto`, in order. -/
def sent_datagrams : List Event → List (List Nat)
  | [] => []
  | .sendto _ bytes _ :: es => bytes :: sent_datagrams es
  | _ :: es => sent_datagrams es

/-- The two bytes that `*(unsigned short *)p = htons(v)` leaves at `p`,
`p+1`: `v` is converted to `uint16_t` and stored in network byte order. -/
def htons_store (v : Int) : List Nat :=
  [(v % 65536).toNat / 256, (v % 65536).toNat % 256]

/-- The value `ntohs(*(unsigned short *)p)` for the two bytes at `p`, `p+1`. -/
def ntohs_load (b0 b1 : Nat) : Nat :=
  (256 * b0 + b1) % 65536

/-! ## Resend requester -/

/-- The 8 request bytes `rtp_request_resend` builds in `req`. -/
def resend_request_bytes (first last : Nat) : List Nat :=
  [0x80, 0x55 ||| 0x80]
    ++ htons_store 1
    ++ htons_store (first : Int)
    ++ htons_store ((last : Int) - (first : Int) + 1)

/-- Embedding of `rtp_request_resend(first, last)`. -/
def rtp_request_resend (first last : Nat) (s : RtpState) : Outcome Unit :=
  if s.running = 0 then
    .died "rtp_request_resend called without active stream!" s
  else
    let s1 := s.emit (.debug 1 "requesting resend on %d packets (%04X:%04X)")
    .returned () (s1.emit (.sendto s1.sock (resend_request_bytes first last) s1.rtp_client))

/-- Big-endian reading of bytes 6 and 7 of a resend request: the count field. -/
def resend_count_field (req : List Nat) : Nat :=
  256 * req.getD 6 0 + req.getD 7 0

/-! ## Packet memory -/

/-- Bytes around a packet buffer, indexed by offset from its first byte. -/
abbrev Mem := Int → Nat

/-- Store the bytes `bs` at offsets `off, off+1, ...`. -/
def Mem.store (m : Mem) (off : Int) (bs : List Nat) : Mem :=
  fun i => if off ≤ i ∧ i < off + bs.length then bs.getD (i - off).toNat 0 else m i

/-- The `len` bytes at offsets `off, off+1, ...`. -/
def Mem.load (m : Mem) (off : Int) (len : Nat) : List Nat :=
  (List.range len).map (fun (k : Nat) => m (off + (k : Int)))

/-! ## Datagram receive loop (`rtp_receiver`) -/

/-- What one `recv(sock, packet, sizeof(packet), 0)` on the datagram socket
gives: a failure (a negative result) or one datagram. -/
inductive RecvResult where
  | error
  | datagram (bs : List Nat)
deriving DecidableEq, Repr

/-- Why the `while (1)` loop of `rtp_receiver` is left. -/
inductive LoopExit where
  | shutdown_flag
  | recv_failed
deriving DecidableEq, Repr

/-- Result of one iteration of the loop of `rtp_receiver`: `leave` is `none`
when the iteration ends by going round the loop again, `packet` is the
buffer afterwards, `events` the calls made during the iteration. -/
structure IterResult where
  leave : Option LoopExit
  packet : Mem
  events : List Event

/-- One iteration of the `while (1)` loop of `rtp_receiver`.
`please_shutdown` is the value of the flag read at the top of the iteration,
`r` what `recv` gives if it is called, `packet` the 2048-byte buffer as the
previous iterations left it. -/
def rtp_receiver_iter (please_shutdown : Int) (r : RecvResult) (packet : Mem) : IterResult :=
  if please_shutdown ≠ 0 then
    { leave := some .shutdown_flag, packet := packet, events := [] }
  else
    match r with
    | .error => { leave := some .recv_failed, packet := packet, events := [] }
    | .datagram bs =>
      -- recv stores at most sizeof(packet) = 2048 bytes and returns their number
      let got := bs.take 2048
      let packet := packet.store 0 got
      let nread : Int := got.length
      let plen : Int := nread
      let type : Nat := packet 1 &&& 0x7F
      if type = 0x54 then
        { leave := none, packet := packet, events := [] }
      else if type = 0x60 ∨ type = 0x56 then
        let pktp : Int := 0
        let pktp : Int := if type = 0x56 then pktp + 4 else pktp
        let plen : Int := if type = 0x56 then plen - 4 else plen
        let seqno := ntohs_load (packet (pktp + 2)) (packet (pktp + 3))
        let pktp := pktp + 12
        let plen := plen - 12
        if plen ≥ 16 then
          { leave := none, packet := packet,
            events := [.put_packet seqno (packet.load pktp plen.toNat) plen] }
        else if type = 0x56 ∧ seqno = 0 then
          { leave := none, packet := packet,
            events := [.debug 2 "resend-related request packet received, ignoring."] }
        else
          { leave := none, packet := packet,
            events := [.debug 1 "Unknown RTP packet of type 0x%02X length %d seqno %d"] }
      else
        { leave := none, packet := packet,
          events := [.warn "Unknown RTP packet of type 0x%02X length %d"] }

/-- The `while (1)` loop of `rtp_receiver` run over the inputs of its
successive iterations (flag value read, result of `recv`). The result is the
way the loop was left (`none`: every input was processed and the thread
waits in `recv`) and the calls made. -/
def rtp_receiver_loop (packet : Mem) : List (Int × RecvResult) → Option LoopExit × List Event
  | [] => (none, [])
  | (flag, r) :: rest =>
    let it := rtp_receiver_iter flag r packet
    match it.leave with
    | some why => (some why, it.events)
    | none =>
      let out := rtp_receiver_loop it.packet rest
      (out.1, it.events ++ out.2)

/-- Embedding of `rtp_receiver`: the loop, then the termination note and
`close(sock)` once the loop is left. -/
def rtp_receiver (packet : Mem) (inputs : List (Int × RecvResult)) : Option LoopExit × List Event :=
  match rtp_receiver_loop packet inputs with
  | (some why, evs) =>
    (some why, evs ++ [.debug 1 "RTP thread interrupted. terminating.", .close_sock])
  | (none, evs) => (none, evs)

/-! ## Stream frame reader (`rtp_tcp_read_chunk`, `rtp_tcp_receiver`) -/

/-- What the connected stream socket has in store, in order of arrival: a
run of bytes, the closure of the connection by the peer (`recv` gives 0), or a
failure of one `recv` call (`recv` gives -1). A stream with nothing left in
store is one the peer has closed. -/
inductive StreamEvent where
  | data (bs : List Nat)
  | closed
  | error
deriving DecidableEq, Repr

/-- One `recv(sock, buf, len, 0)` on the stream socket: the value returned,
the bytes stored at `buf`, and what the socket then has in store. A run of
bytes longer than `len` is delivered in part, the rest stays in store. -/
def stream_recv (len : Nat) : List StreamEvent → Int × List Nat × List StreamEvent
  | [] => (0, [], [])
  | .closed :: rest => (0, [], .closed :: rest)
  | .error :: rest => (-1, [], rest)
  | .data bs :: rest =>
    if bs.length ≤ len then ((bs.length : Int), bs, rest)
    else ((len : Int), bs.take len, .data (bs.drop len) :: rest)

/-- Size of what a stream has in store: one per item plus one per byte.
Every `recv` that does not return 0 lowers it. -/
def stream_weight : List StreamEvent → Nat
  | [] => 0
  | .data bs :: rest => bs.length + 1 + stream_weight rest
  | _ :: rest => 1 + stream_weight rest

/-- State of the stream receiver thread: the global `packet` buffer of
`1024 * 4 * 4` bytes (and the memory around it), the offsets stored to so far,
what the socket has in store, and the calls made. -/
structure TcpState where
  packet : Mem
  written : List Int
  stream : List StreamEvent
  events : List Event

/-- Size in bytes of the global `packet` buffer. -/
def packet_size : Nat := 1024 * 4 * 4

/-- The loop
`while (n != target) { t = recv(sock, packet + n, target - n, 0);
if (t == 0) return 0; n += t; }`
which `rtp_tcp_read_chunk` runs twice (with `target` 4, then `len`).
`some (true, st)`: the loop ended with `n == target`;
`some (false, st)`: `return 0` was executed; `none`: out of fuel. -/
def read_loop : Nat → Int → Int → TcpState → Option (Bool × TcpState)
  | 0, _, _, _ => none
  | fuel + 1, target, n, st =>
    if n = target then some (true, st)
    else
      match stream_recv (target - n).toNat st.stream with
      | (t, bs, rest) =>
        let st1 : TcpState :=
          { st with packet := st.packet.store n bs,
                    written := st.written ++ (List.range bs.length).map (fun (k : Nat) => n + (k : Int)),
                    stream := rest }
        if t = 0 then some (false, st1)
        else read_loop fuel target (n + t) st1

/-- Embedding of `rtp_tcp_read_chunk`: the value returned and the state
afterwards. Each loop gets as fuel the weight of the stream plus one, which
is enough for it to end (`read_loop_returns`); `none` would mean the fuel
ran out. -/
def rtp_tcp_read_chunk (st : TcpState) : Option (Int × TcpState) :=
  match read_loop (stream_weight st.stream + 1) 4 0 st with
  | none => none
  | some (false, st1) => some (0, st1)
  | some (true, st1) =>
    if st1.packet 0 = 0x24 ∧ st1.packet 1 = 0x00 then
      let len : Int := (st1.packet 2 : Int) * 0x100 + (st1.packet 3 : Int)
      match read_loop (stream_weight st1.stream + 1) len 0 st1 with
      | none => none
      | some (false, st2) => some (0, st2)
      | some (true, st2) => some (len, st2)
    else
      some (0, { st1 with events := st1.events ++ [.debug 1 "header error %x %x"] })

/-- The `for(;;)` loop of `rtp_tcp_receiver`. -/
def rtp_tcp_receiver_loop : Nat → TcpState → Option TcpState
  | 0, _ => none
  | fuel + 1, st =>
    match rtp_tcp_read_chunk st with
    | none => none
    | some (len, st1) =>
      if len = 0 then some st1
      else
        rtp_tcp_receiver_loop fuel
          { st1 with events := st1.events ++
              [.put_tcp_packet (st1.packet.load 12 (len - 12).toNat) (len - 12)] }

/-- Embedding of `rtp_tcp_receiver` from the point where `accept` has
returned the connected socket whose stream is `st.stream`: the frame loop,
then the termination note, the two `close` calls and `config.output->stop()`.
The fuel, the weight of the stream plus one, is enough for the loop to end
(`rtp_tcp_receiver_returns`). -/
def rtp_tcp_receiver (st : TcpState) : Option TcpState :=
  match rtp_tcp_receiver_loop (stream_weight st.stream + 1) st with
  | none => none
  | some st1 =>
    some { st1 with events := st1.events ++
      [.debug 1 "RTP thread interrupted. terminating.", .close_new_sock, .close_sock,
       .output_stop] }

/-! ## Session lifecycle (`rtp_setup`, `rtp_shutdown`) -/

/-- What the socket layer answers during `rtp_setup`: the results of
`getaddrinfo`, `socket` and `bind`, and the local port `getsockname` reports. -/
structure SockEnv where
  getaddrinfo_ret : Int
  socket_ret : Int
  bind_ret : Int
  local_port : Nat
deriving DecidableEq, Repr

/-- Embedding of `bind_tcp_port`. -/
def bind_tcp_port (env : SockEnv) (s : RtpState) : Outcome Int :=
  let port : Int := 6000
  let s1 : RtpState := { s.emit (.socket true) with sock := env.socket_ret }
  if s1.sock < 0 then .died "could not open socket!" s1
  else
    let s2 := s1.emit (.bind port.toNat)
    if env.bind_ret < 0 then .died "could not bind a TCP port!" s2
    else .returned port s2

/-- Embedding of `bind_port`. -/
def bind_port (env : SockEnv) (s : RtpState) : Outcome Int :=
  let s1 := s.emit .getaddrinfo
  if env.getaddrinfo_ret < 0 then .died "failed to get usable addrinfo?! %s" s1
  else
    let s2 : RtpState := { s1.emit (.socket false) with sock := env.socket_ret }
    let s3 := s2.emit (.bind 0)
    if env.bind_ret < 0 then .died "could not bind a UDP port!" s3
    else .returned ((env.local_port % 65536 : Nat) : Int) (s3.emit .getsockname)

/-- Embedding of `rtp_setup(remote, type, cport, tport)`; the timing port
`tport` is ignored, as in the source. -/
def rtp_setup (env : SockEnv) (remote : SockAddr) (type cport _tport : Int) (s : RtpState) :
    Outcome Int :=
  if s.running ≠ 0 then .died "rtp_setup called with active stream!" s
  else
    let s1 := s.emit (.debug 1 "rtp_setup: cport=%d tport=%d")
    let s2 : RtpState := { s1 with rtp_client := { remote with port := (cport % 65536).toNat } }
    match (if type ≠ 0 then bind_tcp_port env s2 else bind_port env s2) with
    | .died msg s3 => .died msg s3
    | .returned sport s3 =>
      let s4 := s3.emit (.debug 1 "rtp listening on %s port %d")
      let s5 : RtpState := { s4 with please_shutdown := 0 }
      let s6 : RtpState := { s5.emit (.pthread_create (decide (type ≠ 0))) with
                  rtp_thread := some (decide (type ≠ 0)) }
      .returned sport { s6 with running := 1 }

/-- Embedding of `rtp_shutdown`. `pthread_join` is taken to return. -/
def rtp_shutdown (s : RtpState) : Outcome Unit :=
  if s.running = 0 then .died "rtp_shutdown called without active stream!" s
  else
    let s1 := s.emit (.debug 2 "shutting down RTP thread")
    let s2 : RtpState := { s1 with please_shutdown := 1 }
    let s3 := s2.emit .pthread_kill
    let s4 := s3.emit .pthread_join
    .returned () { s4 with running := 0 }

/-- The socket layer lets `rtp_setup` through: for the stream transport
`socket` and `bind` succeed, for the datagram transport `getaddrinfo` and
`bind` do. -/
def sockets_permit (env : SockEnv) (type : Int) : Prop :=
  if type ≠ 0 then 0 ≤ env.socket_ret ∧ 0 ≤ env.bind_ret
  else 0 ≤ env.getaddrinfo_ret ∧ 0 ≤ env.bind_ret

instance (env : SockEnv) (type : Int) : Decidable (sockets_permit env type) := by
  unfold sockets_permit; infer_instance

/-! ## Sequences of lifecycle calls -/

/-- One call of the negotiation layer into the session lifecycle. -/
inductive Call where
  | setup (env : SockEnv) (remote : SockAddr) (type cport tport : Int)
  | shutdown
deriving DecidableEq, Repr

/-- Make one call; `none` when the call reaches `die`. -/
def run_call (s : RtpState) : Call → Option RtpState
  | .setup env remote type cport tport =>
    match rtp_setup env remote type cport tport s with
    | .returned _ s1 => some s1
    | .died _ _ => none
  | .shutdown =>
    match rtp_shutdown s with
    | .returned _ s1 => some s1
    | .died _ _ => none

/-- Make the calls one after the other: the state after each call, or `none`
when one of them reaches `die`. -/
def run_calls (s : RtpState) : List Call → Option (List RtpState)
  | [] => some []
  | c :: cs =>
    match run_call s c with
    | none => none
    | some s1 =>
      match run_calls s1 cs with
      | none => none
      | some rest => some (s1 :: rest)

/-- The lifecycle as the specification words it, over the calls made and the
state after each: the calls alternate, an `rtp_setup` (when `expect_setup`)
leaving `running = 1` and the shutdown flag 0, then an `rtp_shutdown` leaving
`running = 0` and the shutdown flag 1, and so on. -/
def lifecycle_alternates : Bool → List Call → List RtpState → Prop
  | _, [], [] => True
  | true, .setup _ _ _ _ _ :: cs, st :: sts =>
    st.running = 1 ∧ st.please_shutdown = 0 ∧ lifecycle_alternates false cs sts
  | false, .shutdown :: cs, st :: sts =>
    st.running = 0 ∧ st.please_shutdown = 1 ∧ lifecycle_alternates true cs sts
  | _, _, _ => False

/-! ## Observations on the calls made -/

/-- The `player_put_packet` calls among the calls made, in order: sequence
number, payload bytes, length argument. -/
def put_packet_calls : List Event → List (Nat × List Nat × Int)
  | [] => []
  | .put_packet seqno payload plen :: es => (seqno, payload, plen) :: put_packet_calls es
  | _ :: es => put_packet_calls es

/-- The `player_put_tcp_packet` calls among the calls made, in order: payload
bytes and length argument. -/
def put_tcp_packet_calls : List Event → List (List Nat × Int)
  | [] => []
  | .put_tcp_packet payload len :: es => (payload, len) :: put_tcp_packet_calls es
  | _ :: es => put_tcp_packet_calls es

/-- The masked type byte of a datagram just received into `packet`:
`packet[1] & ~0x80`. -/
def masked_type (packet : Mem) : Nat :=
  packet 1 &&& 0x7F

/-! ## States used for concrete evaluations -/

/-- A state with a session active on the datagram transport. -/
def active_session : RtpState :=
  { running := 1, please_shutdown := 0, rtp_client := ⟨2, 0x0A000001, 6001⟩, sock := 3,
    rtp_thread := some false, trace := [] }

/-- The state before any session: `running` is 0. -/
def idle_session : RtpState :=
  { running := 0, please_shutdown := 0, rtp_client := ⟨0, 0, 0⟩, sock := 0,
    rtp_thread := none, trace := [] }

/-- A stream receiver thread that has made no call yet, with a zeroed buffer
and the stream `s` in store. -/
def fresh_tcp (s : List StreamEvent) : TcpState :=
  { packet := fun _ => 0, written := [], stream := s, events := [] }

/-! ## Resend requester: theorems -/

/-- The datagrams sent over two stretches of calls are those of the first
followed by those of the second. -/
theorem sent_datagrams_append (xs ys : List Event) :
    sent_datagrams (xs ++ ys) = sent_datagrams xs ++ sent_datagrams ys := by
  induction xs with
  | nil => rfl
  | cons e es ih => cases e <;> simp [sent_datagrams, ih]

/-- The request bytes written out, for a 16-bit `first`. -/
theorem resend_request_bytes_eq (first last : Nat) (hf : first < 65536) :
    resend_request_bytes first last =
      [0x80, 0xD5, 0x00, 0x01, first / 256, first % 256,
       (((last : Int) - (first : Int) + 1) % 65536).toNat / 256,
       (((last : Int) - (first : Int) + 1) % 65536).toNat % 256] := by
  have h1 : (((first : Int)) % 65536).toNat = first := by omega
  have h2 : (((1 : Int)) % 65536).toNat = 1 := by decide
  simp [resend_request_bytes, htons_store, h1, h2]

/-- With a session active `rtp_request_resend` returns after its debug note
and one `sendto` to the session peer. -/
theorem rtp_request_resend_running (first last : Nat) (s : RtpState) (hr : s.running ≠ 0) :
    rtp_request_resend first last s =
      .returned ()
        { s with trace := s.trace ++
            [.debug 1 "requesting resend on %d packets (%04X:%04X)",
             .sendto s.sock (resend_request_bytes first last) s.rtp_client] } := by
  simp [rtp_request_resend, hr, RtpState.emit]

/-- The count field read back is `last - first + 1` reduced to 16 bits. -/
theorem resend_count_field_eq (first last : Nat) :
    (resend_count_field (resend_request_bytes first last) : Int)
      = ((last : Int) - (first : Int) + 1) % 65536 := by
  simp [resend_request_bytes, htons_store, resend_count_field]
  omega

/-- C1 (as stated, refuted): with a session active, `rtp_request_resend(1, 0)`
sends a request whose count field, read back big-endian from bytes 6-7, is 0,
whereas `(last - first) mod 65536 + 1` is 65536; the field is not `>= 1`. -/
theorem resend_count_field_zero_at_1_0 :
    active_session.running ≠ 0
    ∧ sent_datagrams (rtp_request_resend 1 0 active_session).state.trace
        = [[0x80, 0xD5, 0x00, 0x01, 0x00, 0x01, 0x00, 0x00]]
    ∧ resend_count_field [0x80, 0xD5, 0x00, 0x01, 0x00, 0x01, 0x00, 0x00] = 0
    ∧ ((0 : Int) - 1) % 65536 + 1 = 65536
    ∧ ¬ (1 ≤ resend_count_field [0x80, 0xD5, 0x00, 0x01, 0x00, 0x01, 0x00, 0x00]) := by
  decide

/-- C1 (amended): for all 16-bit `first` and `last`, with a session active,
`rtp_request_resend` sends one request whose count field (bytes 6-7 read back
big-endian) is `((last - first) mod 65536 + 1) mod 65536`; unless
`(last - first) mod 65536 = 65535` this is `(last - first) mod 65536 + 1` and
is `>= 1`. -/
theorem resend_count_field_mod (first last : Nat) (s : RtpState)
    (_hf : first < 65536) (_hl : last < 65536) (hr : s.running ≠ 0) :
    sent_datagrams (rtp_request_resend first last s).state.trace
        = sent_datagrams s.trace ++ [resend_request_bytes first last]
    ∧ (resend_count_field (resend_request_bytes first last) : Int)
        = (((last : Int) - (first : Int)) % 65536 + 1) % 65536
    ∧ (((last : Int) - (first : Int)) % 65536 ≠ 65535 →
        (resend_count_field (resend_request_bytes first last) : Int)
            = ((last : Int) - (first : Int)) % 65536 + 1
          ∧ 1 ≤ resend_count_field (resend_request_bytes first last)) := by
  have hc := resend_count_field_eq first last
  refine ⟨?_, ?_, ?_⟩
  · rw [rtp_request_resend_running first last s hr]
    simp [Outcome.state, sent_datagrams_append, sent_datagrams]
  · rw [hc]; omega
  · intro hne
    constructor
    · rw [hc]; omega
    · have : (1 : Int) ≤ (resend_count_field (resend_request_bytes first last) : Int) := by
        rw [hc]; omega
      exact_mod_cast this

/-- C1 (amended) at `first = 0x1234`, `last = 0x1236`: the count field is 3. -/
theorem resend_count_field_mod_witness :
    (0x1234 < 65536 ∧ 0x1236 < 65536 ∧ active_session.running ≠ 0)
    ∧ sent_datagrams (rtp_request_resend 0x1234 0x1236 active_session).state.trace
        = sent_datagrams active_session.trace ++ [resend_request_bytes 0x1234 0x1236]
    ∧ (resend_count_field (resend_request_bytes 0x1234 0x1236) : Int)
        = (((0x1236 : Nat) : Int) - ((0x1234 : Nat) : Int)) % 65536 + 1 :=
  have h := resend_count_field_mod 0x1234 0x1236 active_session (by decide) (by decide) (by decide)
  ⟨by decide, h.1, (h.2.2 (by decide)).1⟩

/-- C2: for all 16-bit `first` and `last`, with a session active,
`rtp_request_resend` returns after exactly one `sendto`, of the 8 bytes
`0x80, 0xD5, 0x00, 0x01`, high and low byte of `first`, high and low byte of
the 16-bit count `(last - first + 1) mod 65536`; the bytes are a function of
`first` and `last` alone, and no other session state changes. -/
theorem rtp_request_resend_datagram (first last : Nat) (s : RtpState)
    (hf : first < 65536) (_hl : last < 65536) (hr : s.running ≠ 0) :
    rtp_request_resend first last s =
      .returned ()
        { s with trace := s.trace ++
            [.debug 1 "requesting resend on %d packets (%04X:%04X)",
             .sendto s.sock
               [0x80, 0xD5, 0x00, 0x01, first / 256, first % 256,
                (((last : Int) - (first : Int) + 1) % 65536).toNat / 256,
                (((last : Int) - (first : Int) + 1) % 65536).toNat % 256]
               s.rtp_client] }
    ∧ sent_datagrams (rtp_request_resend first last s).state.trace
        = sent_datagrams s.trace ++
            [[0x80, 0xD5, 0x00, 0x01, first / 256, first % 256,
              (((last : Int) - (first : Int) + 1) % 65536).toNat / 256,
              (((last : Int) - (first : Int) + 1) % 65536).toNat % 256]]
    ∧ (resend_request_bytes first last).length = 8 := by
  have hb := resend_request_bytes_eq first last hf
  refine ⟨?_, ?_, ?_⟩
  · rw [rtp_request_resend_running first last s hr, hb]
  · rw [rtp_request_resend_running first last s hr, hb]
    simp [Outcome.state, sent_datagrams_append, sent_datagrams]
  · rw [hb]; rfl

/-- C2 at `first = 0x1234`, `last = 0x1236`. -/
theorem rtp_request_resend_datagram_witness :
    (0x1234 < 65536 ∧ 0x1236 < 65536 ∧ active_session.running ≠ 0)
    ∧ sent_datagrams (rtp_request_resend 0x1234 0x1236 active_session).state.trace
        = [[0x80, 0xD5, 0x00, 0x01, 0x12, 0x34, 0x00, 0x03]] :=
  ⟨by decide,
   (rtp_request_resend_datagram 0x1234 0x1236 active_session
      (by decide) (by decide) (by decide)).2.1⟩

/-! ## Datagram receive loop: theorems -/

/-- A byte stored at the start of the buffer is read back at its index. -/
theorem Mem.store_zero_apply (m : Mem) (bs : List Nat) (i : Nat) (hi : i < bs.length) :
    (m.store 0 bs) (i : Int) = bs.getD i 0 := by
  simp [Mem.store, hi]

/-- Loading `len` bytes gives `len` bytes. -/
theorem Mem.load_length (m : Mem) (off : Int) (len : Nat) : (m.load off len).length = len := by
  simp [Mem.load]

/-- C3: for a datagram of length `n <= 2048` that leaves, after `recv`, a type
byte (buffer byte 1 with the high bit masked off) of `0x60`, one iteration of
`rtp_receiver` goes round the loop again, and it calls `player_put_packet`
exactly once, with payload length `n - 12`, when `n >= 28`, and makes only the
debug-level-1 `Unknown RTP packet` call when `n < 28`. -/
theorem audio_datagram_forwarding (bs : List Nat) (packet : Mem)
    (hn : bs.length ≤ 2048)
    (htype : (packet.store 0 bs) 1 &&& 0x7F = 0x60) :
    (rtp_receiver_iter 0 (.datagram bs) packet).leave = none
    ∧ (28 ≤ bs.length →
        ∃ seqno payload,
          (rtp_receiver_iter 0 (.datagram bs) packet).events
              = [.put_packet seqno payload ((bs.length : Int) - 12)]
            ∧ payload.length = bs.length - 12)
    ∧ (bs.length < 28 →
        (rtp_receiver_iter 0 (.datagram bs) packet).events
          = [.debug 1 "Unknown RTP packet of type 0x%02X length %d seqno %d"]) := by
  have ht : bs.take 2048 = bs := List.take_of_length_le hn
  refine ⟨?_, ?_, ?_⟩
  · simp only [rtp_receiver_iter, ht, htype]
    simp
    split <;> rfl
  · intro h28
    have h : (16 : Int) ≤ (bs.length : Int) - 12 := by omega
    refine ⟨ntohs_load ((packet.store 0 bs) 2) ((packet.store 0 bs) 3),
      (packet.store 0 bs).load 12 ((bs.length : Int) - 12).toNat, ?_, ?_⟩
    · simp [rtp_receiver_iter, ht, htype, h]
    · rw [Mem.load_length]; omega
  · intro h28
    have h : ¬ ((16 : Int) ≤ (bs.length : Int) - 12) := by omega
    simp [rtp_receiver_iter, ht, htype, h]

/-- C3 at a 28-byte audio datagram, one packet of payload length 16, and at a
27-byte one, no packet. -/
theorem audio_datagram_forwarding_witness :
    (([0x80, 0xE0, 0x00, 0x07] ++ List.replicate 24 5).length ≤ 2048
      ∧ (Mem.store (fun _ => 0) 0 ([0x80, 0xE0, 0x00, 0x07] ++ List.replicate 24 5)) 1 &&& 0x7F
          = 0x60
      ∧ 28 ≤ ([0x80, 0xE0, 0x00, 0x07] ++ List.replicate 24 5).length)
    ∧ (∃ seqno payload,
        (rtp_receiver_iter 0 (.datagram ([0x80, 0xE0, 0x00, 0x07] ++ List.replicate 24 5))
            (fun _ => 0)).events = [.put_packet seqno payload 16]
          ∧ payload.length = 16)
    ∧ (rtp_receiver_iter 0 (.datagram ([0x80, 0xE0, 0x00, 0x07] ++ List.replicate 23 5))
          (fun _ => 0)).events
        = [.debug 1 "Unknown RTP packet of type 0x%02X length %d seqno %d"] :=
  ⟨by decide,
   (audio_datagram_forwarding ([0x80, 0xE0, 0x00, 0x07] ++ List.replicate 24 5) (fun _ => 0)
      (by decide) (by decide)).2.1 (by decide),
   (audio_datagram_forwarding ([0x80, 0xE0, 0x00, 0x07] ++ List.replicate 23 5) (fun _ => 0)
      (by decide) (by decide)).2.2 (by decide)⟩

/-- C7: for a datagram of any length and content whose type byte, masked, is
`0x54` (sync), one iteration of `rtp_receiver` makes no call at all (no
`player_put_packet`, no diagnostic) and goes round the loop again. -/
theorem sync_datagram_ignored (bs : List Nat) (packet : Mem)
    (htype : (packet.store 0 (bs.take 2048)) 1 &&& 0x7F = 0x54) :
    (rtp_receiver_iter 0 (.datagram bs) packet).leave = none
    ∧ (rtp_receiver_iter 0 (.datagram bs) packet).events = [] := by
  simp [rtp_receiver_iter, htype]

/-- C7 at an 8-byte sync datagram. -/
theorem sync_datagram_ignored_witness :
    (Mem.store (fun _ => 0) 0 (List.take 2048 [0x80, 0xD4, 1, 2, 3, 4, 5, 6])) 1 &&& 0x7F = 0x54
    ∧ (rtp_receiver_iter 0 (.datagram [0x80, 0xD4, 1, 2, 3, 4, 5, 6]) (fun _ => 0)).leave = none
    ∧ (rtp_receiver_iter 0 (.datagram [0x80, 0xD4, 1, 2, 3, 4, 5, 6]) (fun _ => 0)).events = [] :=
  ⟨by decide, sync_datagram_ignored [0x80, 0xD4, 1, 2, 3, 4, 5, 6] (fun _ => 0) (by decide)⟩

/-- C8: for a datagram of length `n`, `8 <= n < 32`, whose masked type byte is
`0x56` (resend-audio) and whose bytes 6 and 7 are zero, one iteration of
`rtp_receiver` makes exactly one call, the debug-level-2 note, and goes round
the loop again. -/
theorem short_resend_echo_ignored (bs : List Nat) (packet : Mem)
    (hlo : 8 ≤ bs.length) (hhi : bs.length < 32)
    (htype : bs.getD 1 0 &&& 0x7F = 0x56)
    (h6 : bs.getD 6 0 = 0) (h7 : bs.getD 7 0 = 0) :
    (rtp_receiver_iter 0 (.datagram bs) packet).leave = none
    ∧ (rtp_receiver_iter 0 (.datagram bs) packet).events
        = [.debug 2 "resend-related request packet received, ignoring."] := by
  have ht : bs.take 2048 = bs := List.take_of_length_le (by omega)
  have b1 : (packet.store 0 bs) 1 &&& 0x7F = 0x56 := by
    rw [← htype]; exact congrArg (· &&& 0x7F) (Mem.store_zero_apply packet bs 1 (by omega))
  have b6 : (packet.store 0 bs) 6 = 0 := by
    rw [← h6]; exact Mem.store_zero_apply packet bs 6 (by omega)
  have b7 : (packet.store 0 bs) 7 = 0 := by
    rw [← h7]; exact Mem.store_zero_apply packet bs 7 (by omega)
  have h : ¬ ((16 : Int) ≤ (bs.length : Int) - 4 - 12) := by omega
  simp [rtp_receiver_iter, ht, b1, b6, b7, h, ntohs_load]

/-- C10: the iteration of `rtp_receiver` for a successfully received datagram,
of any length and content, ends by going round the loop again; an iteration
leaves the loop exactly when the shutdown flag is found set at its top or
`recv` fails; so the loop run over any inputs is not left if and only if no
input has the flag set or a failed `recv`. -/
theorem datagram_loop_only_left_on_error_or_shutdown :
    (∀ (bs : List Nat) (packet : Mem),
        (rtp_receiver_iter 0 (.datagram bs) packet).leave = none)
    ∧ (∀ (flag : Int) (r : RecvResult) (packet : Mem),
        ((rtp_receiver_iter flag r packet).leave = some .shutdown_flag ↔ flag ≠ 0)
        ∧ ((rtp_receiver_iter flag r packet).leave = some .recv_failed
            ↔ flag = 0 ∧ r = .error))
    ∧ (∀ (packet : Mem) (inputs : List (Int × RecvResult)),
        (rtp_receiver_loop packet inputs).1 = none
          ↔ ∀ x ∈ inputs, x.1 = 0 ∧ x.2 ≠ .error) := by
  have iter_leave : ∀ (flag : Int) (r : RecvResult) (packet : Mem),
      (rtp_receiver_iter flag r packet).leave =
        if flag ≠ 0 then some .shutdown_flag
        else match r with
          | .error => some .recv_failed
          | .datagram _ => none := by
    intro flag r packet
    unfold rtp_receiver_iter
    by_cases hf : flag ≠ 0
    · simp [hf]
    · cases r with
      | error => simp [hf]
      | datagram bs =>
        simp only [hf, if_false]
        split_ifs <;> rfl
  refine ⟨?_, ?_, ?_⟩
  · intro bs packet; rw [iter_leave]; simp
  · intro flag r packet
    rw [iter_leave]
    by_cases hf : flag = 0
    · cases r <;> simp [hf]
    · simp [hf]
  · intro packet inputs
    induction inputs generalizing packet with
    | nil => simp [rtp_receiver_loop]
    | cons x rest ih =>
      obtain ⟨flag, r⟩ := x
      have hl := iter_leave flag r packet
      by_cases hf : flag = 0
      · cases r with
        | error =>
          simp [hf] at hl
          simp [rtp_receiver_loop, hl, hf]
        | datagram bs =>
          simp [hf] at hl
          simp [rtp_receiver_loop, hl, hf, ih]
      · simp [hf] at hl
        simp [rtp_receiver_loop, hl, hf]

/-- C8 at an 8-byte resend-audio datagram with sequence number 0. -/
theorem short_resend_echo_ignored_witness :
    (8 ≤ [0x80, 0xD6, 0, 1, 0, 0, 0, 0].length ∧ [0x80, 0xD6, 0, 1, 0, 0, 0, 0].length < 32
      ∧ [0x80, 0xD6, 0, 1, 0, 0, 0, 0].getD 1 0 &&& 0x7F = 0x56
      ∧ [0x80, 0xD6, 0, 1, 0, 0, 0, 0].getD 6 0 = 0
      ∧ [0x80, 0xD6, 0, 1, 0, 0, 0, 0].getD 7 0 = 0)
    ∧ (rtp_receiver_iter 0 (.datagram [0x80, 0xD6, 0, 1, 0, 0, 0, 0]) (fun _ => 0)).leave = none
    ∧ (rtp_receiver_iter 0 (.datagram [0x80, 0xD6, 0, 1, 0, 0, 0, 0]) (fun _ => 0)).events
        = [.debug 2 "resend-related request packet received, ignoring."] :=
  ⟨by decide,
   short_resend_echo_ignored [0x80, 0xD6, 0, 1, 0, 0, 0, 0] (fun _ => 0)
     (by decide) (by decide) (by decide) (by decide) (by decide)⟩

/-! ## Stream frame reader: lemmas -/

/-- Storing no byte changes nothing. -/
theorem Mem.store_nil (m : Mem) (off : Int) : m.store off [] = m := by
  funext i
  simp [Mem.store]

/-- Two stores end to end are the store of the two runs joined. -/
theorem Mem.store_append (m : Mem) (off : Int) (a b : List Nat) :
    (m.store off a).store (off + a.length) b = m.store off (a ++ b) := by
  funext i
  simp only [Mem.store, List.length_append, Nat.cast_add]
  by_cases h1 : off + (a.length : Int) ≤ i ∧ i < off + a.length + b.length
  · have h2 : off ≤ i ∧ i < off + ((a.length : Int) + b.length) := by omega
    rw [if_pos h1, if_pos h2]
    have h3 : (i - off).toNat = a.length + (i - (off + a.length)).toNat := by omega
    rw [h3, List.getD_append_right _ _ _ _ (by omega)]
    simp
  · rw [if_neg h1]
    by_cases h2 : off ≤ i ∧ i < off + a.length
    · have h3 : off ≤ i ∧ i < off + ((a.length : Int) + b.length) := by omega
      rw [if_pos h2, if_pos h3, List.getD_append _ _ _ _ (by omega)]
    · have h3 : ¬ (off ≤ i ∧ i < off + ((a.length : Int) + b.length)) := by omega
      rw [if_neg h2, if_neg h3]

/-- Bytes just stored are loaded back. -/
theorem Mem.load_store (m : Mem) (off : Int) (bs : List Nat) :
    (m.store off bs).load off bs.length = bs := by
  apply List.ext_getElem
  · simp [Mem.load]
  · intro k h1 h2
    simp [Mem.load, Mem.store, h2]

/-- Weight of a stream that starts with runs of bytes. -/
theorem stream_weight_append_data (chunks : List (List Nat)) (tail : List StreamEvent) :
    stream_weight (chunks.map StreamEvent.data ++ tail)
      = (chunks.map (fun c => c.length + 1)).sum + stream_weight tail := by
  induction chunks with
  | nil => simp
  | cons c cs ih => simp [stream_weight, ih]; omega


/-- One `recv` that does not return 0 lowers the weight of the stream. -/
theorem stream_recv_weight (len : Nat) (s : List StreamEvent) :
    (stream_recv len s).1 ≠ 0 → stream_weight (stream_recv len s).2.2 < stream_weight s := by
  cases s with
  | nil => simp [stream_recv]
  | cons e rest =>
    cases e with
    | closed => simp [stream_recv]
    | error => simp [stream_recv, stream_weight]
    | data bs =>
      simp only [stream_recv]
      split_ifs with h
      · intro _; simp [stream_weight]
      · intro h0
        have : len ≠ 0 := by simpa using h0
        simp [stream_weight]; omega

/-- No `recv` raises the weight of the stream. -/
theorem stream_recv_weight_le (len : Nat) (s : List StreamEvent) :
    stream_weight (stream_recv len s).2.2 ≤ stream_weight s := by
  cases s with
  | nil => simp [stream_recv]
  | cons e rest =>
    cases e with
    | closed => simp [stream_recv]
    | error => simp [stream_recv, stream_weight]
    | data bs =>
      simp only [stream_recv]
      split_ifs with h
      · simp [stream_weight]
      · simp [stream_weight]

/-- With fuel above the weight of the stream, `read_loop` returns, and the
stream it leaves weighs no more. -/
theorem read_loop_returns (fuel : Nat) :
    ∀ (target n : Int) (st : TcpState), stream_weight st.stream < fuel →
      ∃ b st1, read_loop fuel target n st = some (b, st1)
        ∧ stream_weight st1.stream ≤ stream_weight st.stream
        ∧ (b = true → n ≠ target → stream_weight st1.stream < stream_weight st.stream) := by
  induction fuel with
  | zero => intro _ _ _ h; omega
  | succ fuel ih =>
    intro target n st hw
    unfold read_loop
    by_cases hn : n = target
    · exact ⟨true, st, by simp [hn], le_refl _, fun _ h => absurd hn h⟩
    · simp only [hn, if_false]
      by_cases ht : (stream_recv (target - n).toNat st.stream).1 = 0
      · refine ⟨false, _, by rw [if_pos ht], ?_, by simp⟩
        exact stream_recv_weight_le _ _
      · have hlt := stream_recv_weight _ _ ht
        obtain ⟨b, st1, h1, h2, _⟩ := ih target (n + (stream_recv (target - n).toNat st.stream).1)
          { st with
            packet := st.packet.store n (stream_recv (target - n).toNat st.stream).2.1,
            written := st.written ++ (List.range (stream_recv (target - n).toNat st.stream).2.1.length).map
              (fun (k : Nat) => n + (k : Int)),
            stream := (stream_recv (target - n).toNat st.stream).2.2 } (by simp; omega)
        refine ⟨b, st1, by rw [if_neg ht]; exact h1, ?_, ?_⟩
        · simp at h2; omega
        · intro _ _; simp at h2; omega

/-- When the stream holds, in non-empty runs, the bytes `want` that the loop
still has to read (and then `extra`), `read_loop` ends with `n == target`,
has stored `want` at offset `n`, and leaves exactly `extra` in store. -/
theorem read_loop_data (fuel : Nat) :
    ∀ (target n : Int) (st : TcpState) (chunks : List (List Nat)) (tail : List StreamEvent)
      (want extra : List Nat),
      st.stream = chunks.map StreamEvent.data ++ tail →
      (∀ c ∈ chunks, c ≠ []) →
      chunks.flatten = want ++ extra →
      (want.length : Int) = target - n →
      stream_weight st.stream < fuel →
      ∃ (st1 : TcpState) (chunks1 : List (List Nat)), read_loop fuel target n st = some (true, st1)
        ∧ st1.packet = st.packet.store n want
        ∧ st1.stream = chunks1.map StreamEvent.data ++ tail
        ∧ (∀ c ∈ chunks1, c ≠ [])
        ∧ chunks1.flatten = extra
        ∧ st1.events = st.events := by
  induction fuel with
  | zero => intro _ _ _ _ _ _ _ _ _ _ _ h; omega
  | succ fuel ih =>
    intro target n st chunks tail want extra hs hne hflat hlen hw
    unfold read_loop
    by_cases hn : n = target
    · have hw0 : want = [] := by
        apply List.eq_nil_of_length_eq_zero; omega
      subst hw0
      exact ⟨st, chunks, by simp [hn], by rw [Mem.store_nil], hs, hne, by simpa using hflat, rfl⟩
    · have hwpos : 0 < want.length := by omega
      have hlen1 : (target - n).toNat = want.length := by omega
      cases chunks with
      | nil =>
        simp at hflat
        rw [hflat.1] at hwpos
        simp at hwpos
      | cons c cs =>
        have hcne : c ≠ [] := hne c (by simp)
        have hcpos : 0 < c.length := List.length_pos.mpr hcne
        have hs1 : st.stream = .data c :: (cs.map StreamEvent.data ++ tail) := by simpa using hs
        have hflat1 : c ++ cs.flatten = want ++ extra := by simpa using hflat
        rw [hs1] at hw
        simp only [stream_weight] at hw
        simp only [hn, if_false, hs1, hlen1, stream_recv]
        by_cases hc : c.length ≤ want.length
        · have hc0 : ¬ ((c.length : Int) = 0) := by omega
          have htake : c = want.take c.length := by
            have := congrArg (List.take c.length) hflat1
            simpa [List.take_append_of_le_length hc] using this
          have hdrop : cs.flatten = want.drop c.length ++ extra := by
            have := congrArg (List.drop c.length) hflat1
            simpa [List.drop_append_of_le_length hc] using this
          have hwant : c ++ want.drop c.length = want := by
            conv_lhs => rw [htake]
            simp only [List.length_take, Nat.min_eq_left hc]
            exact List.take_append_drop _ _
          simp only [hc, if_true, hc0, if_false]
          obtain ⟨st1, chunks1, h1, h2, h3, h4, h5, h6⟩ :=
            ih target (n + (c.length : Int))
              { st with
                packet := st.packet.store n c,
                written := st.written ++ (List.range c.length).map (fun (k : Nat) => n + (k : Int)),
                stream := cs.map StreamEvent.data ++ tail }
              cs tail (want.drop c.length) extra rfl
              (fun x hx => hne x (by simp [hx])) hdrop
              (by simp only [List.length_drop]; omega)
              (by rw [stream_weight_append_data] at hw ⊢; omega)
          refine ⟨st1, chunks1, h1, ?_, h3, h4, h5, h6⟩
          rw [h2]
          simp only
          rw [Mem.store_append, hwant]
        · have hc1 : want.length < c.length := by omega
          have hw0 : ¬ ((want.length : Int) = 0) := by omega
          have htake : c.take want.length = want := by
            have := congrArg (List.take want.length) hflat1
            simpa [List.take_append_of_le_length (le_of_lt hc1)] using this
          have hdrop : c.drop want.length ++ cs.flatten = extra := by
            have := congrArg (List.drop want.length) hflat1
            simpa [List.drop_append_of_le_length (le_of_lt hc1)] using this
          simp only [hc, if_false, hw0]
          obtain ⟨st1, chunks1, h1, h2, h3, h4, h5, h6⟩ :=
            ih target (n + (want.length : Int))
              { st with
                packet := st.packet.store n (c.take want.length),
                written := st.written ++
                  (List.range (c.take want.length).length).map (fun (k : Nat) => n + (k : Int)),
                stream := .data (c.drop want.length) :: (cs.map StreamEvent.data ++ tail) }
              (c.drop want.length :: cs) tail [] extra (by simp)
              (by
                intro x hx
                simp only [List.mem_cons] at hx
                rcases hx with hx | hx
                · subst hx
                  intro h0
                  have := congrArg List.length h0
                  simp at this
                  omega
                · exact hne x (by simp [hx]))
              (by simpa using hdrop)
              (by simp; omega)
              (by simp only [stream_weight, List.length_drop]; omega)
          refine ⟨st1, chunks1, h1, ?_, h3, h4, h5, h6⟩
          rw [h2]
          simp only
          rw [Mem.store_nil, htake]

/-- When the peer closes the stream before the bytes the loop still has to
read have all arrived, `read_loop` executes `return 0`. -/
theorem read_loop_closed (fuel : Nat) :
    ∀ (target n : Int) (st : TcpState) (chunks : List (List Nat)) (tail : List StreamEvent),
      st.stream = chunks.map StreamEvent.data ++ tail →
      (∀ c ∈ chunks, c ≠ []) →
      (tail = [] ∨ ∃ r, tail = StreamEvent.closed :: r) →
      (chunks.flatten.length : Int) < target - n →
      stream_weight st.stream < fuel →
      ∃ (st1 : TcpState), read_loop fuel target n st = some (false, st1)
        ∧ st1.stream = tail
        ∧ st1.events = st.events := by
  induction fuel with
  | zero => intro _ _ _ _ _ _ _ _ _ h; omega
  | succ fuel ih =>
    intro target n st chunks tail hs hne htail hlen hw
    unfold read_loop
    have hn : ¬ n = target := by omega
    cases chunks with
    | nil =>
      have hs1 : st.stream = tail := by simpa using hs
      rcases htail with h | ⟨r, h⟩
      · subst h
        simp only [hn, if_false, hs1, stream_recv]
        exact ⟨_, rfl, rfl, rfl⟩
      · subst h
        simp only [hn, if_false, hs1, stream_recv]
        exact ⟨_, rfl, rfl, rfl⟩
    | cons c cs =>
      have hcne : c ≠ [] := hne c (by simp)
      have hcpos : 0 < c.length := List.length_pos.mpr hcne
      have hs1 : st.stream = .data c :: (cs.map StreamEvent.data ++ tail) := by simpa using hs
      simp only [List.flatten_cons, List.length_append, Nat.cast_add] at hlen
      rw [hs1] at hw
      simp only [stream_weight] at hw
      have hc : c.length ≤ (target - n).toNat := by omega
      have hc0 : ¬ ((c.length : Int) = 0) := by omega
      simp only [hn, if_false, hs1, stream_recv, hc, if_true, hc0]
      obtain ⟨st1, h1, h2, h3⟩ :=
        ih target (n + (c.length : Int))
          { st with
            packet := st.packet.store n c,
            written := st.written ++ (List.range c.length).map (fun (k : Nat) => n + (k : Int)),
            stream := cs.map StreamEvent.data ++ tail }
          cs tail rfl (fun x hx => hne x (by simp [hx])) htail (by omega) (by simp only; omega)
      exact ⟨st1, h1, h2, h3⟩

/-- `rtp_tcp_read_chunk` returns on every stream, and a non-zero return has
taken something from the stream. -/
theorem rtp_tcp_read_chunk_returns (st : TcpState) :
    ∃ (len : Int) (st1 : TcpState), rtp_tcp_read_chunk st = some (len, st1)
      ∧ stream_weight st1.stream ≤ stream_weight st.stream
      ∧ (len ≠ 0 → stream_weight st1.stream < stream_weight st.stream) := by
  obtain ⟨b, st1, h1, h2, h3⟩ :=
    read_loop_returns (stream_weight st.stream + 1) 4 0 st (by omega)
  unfold rtp_tcp_read_chunk
  rw [h1]
  cases b with
  | false => exact ⟨0, st1, rfl, h2, by simp⟩
  | true =>
    have h3 := h3 rfl (by decide)
    simp only
    split_ifs with hm
    · obtain ⟨b2, st2, k1, k2, _⟩ :=
        read_loop_returns (stream_weight st1.stream + 1)
          ((st1.packet 2 : Int) * 0x100 + (st1.packet 3 : Int)) 0 st1 (by omega)
      rw [k1]
      cases b2 with
      | false => exact ⟨0, st2, rfl, by omega, by simp⟩
      | true => exact ⟨_, st2, rfl, by omega, fun _ => by omega⟩
    · exact ⟨0, _, rfl, h2, by simp⟩

/-- With fuel above the weight of the stream the frame loop of
`rtp_tcp_receiver` ends. -/
theorem rtp_tcp_receiver_loop_returns (fuel : Nat) :
    ∀ (st : TcpState), stream_weight st.stream < fuel →
      ∃ (st1 : TcpState), rtp_tcp_receiver_loop fuel st = some st1 := by
  induction fuel with
  | zero => intro _ h; omega
  | succ fuel ih =>
    intro st hw
    obtain ⟨len, st1, h1, h2, h3⟩ := rtp_tcp_read_chunk_returns st
    unfold rtp_tcp_receiver_loop
    rw [h1]
    simp only
    split_ifs with h0
    · exact ⟨st1, rfl⟩
    · have := h3 h0
      exact ih _ (by simp only; omega)

/-- The stream receiver thread ends on every stream. -/
theorem rtp_tcp_receiver_returns (st : TcpState) :
    ∃ (st1 : TcpState), rtp_tcp_receiver st = some st1 := by
  obtain ⟨st1, h⟩ := rtp_tcp_receiver_loop_returns (stream_weight st.stream + 1) st (by omega)
  unfold rtp_tcp_receiver
  rw [h]
  exact ⟨_, rfl⟩

/-- When `rtp_tcp_read_chunk` reports no frame, `rtp_tcp_receiver` leaves its
loop at once: it makes its four closing calls and reads nothing more. -/
theorem rtp_tcp_receiver_no_frame (st st1 : TcpState)
    (h : rtp_tcp_read_chunk st = some (0, st1)) :
    rtp_tcp_receiver st =
      some { st1 with events := st1.events ++
        [.debug 1 "RTP thread interrupted. terminating.", .close_new_sock, .close_sock,
         .output_stop] } := by
  unfold rtp_tcp_receiver rtp_tcp_receiver_loop
  rw [h]
  rfl

/-- C4: when the stream holds, split into non-empty pieces in any way, the
header `[0x24, 0x00, hi, lo]` followed by at least `L = 256*hi + lo` bytes
(`L` within the 16384-byte buffer), `rtp_tcp_read_chunk` returns `L`, leaves
the `L` payload bytes in `packet[0..L)`, and has taken exactly `4 + L` bytes
from the stream, making no call. -/
theorem rtp_tcp_read_chunk_frame (st : TcpState) (chunks : List (List Nat))
    (tail : List StreamEvent) (hi lo : Nat) (payload extra : List Nat)
    (_hhi : hi < 256) (_hlo : lo < 256) (_hfit : 256 * hi + lo ≤ packet_size)
    (hs : st.stream = chunks.map StreamEvent.data ++ tail)
    (hne : ∀ c ∈ chunks, c ≠ [])
    (hflat : chunks.flatten = [0x24, 0x00, hi, lo] ++ payload ++ extra)
    (hlen : payload.length = 256 * hi + lo) :
    ∃ (st1 : TcpState) (chunks1 : List (List Nat)),
      rtp_tcp_read_chunk st = some (((256 * hi + lo : Nat) : Int), st1)
      ∧ st1.packet.load 0 (256 * hi + lo) = payload
      ∧ st1.stream = chunks1.map StreamEvent.data ++ tail
      ∧ chunks1.flatten = extra
      ∧ st1.events = st.events := by
  obtain ⟨sa, ca, a1, a2, a3, a4, a5, a6⟩ :=
    read_loop_data (stream_weight st.stream + 1) 4 0 st chunks tail [0x24, 0x00, hi, lo]
      (payload ++ extra) hs hne (by simpa using hflat) (by simp) (by omega)
  have hp0 : sa.packet 0 = 0x24 := by rw [a2]; simp [Mem.store]
  have hp1 : sa.packet 1 = 0x00 := by rw [a2]; simp [Mem.store]
  have hp2 : sa.packet 2 = hi := by rw [a2]; simp [Mem.store]
  have hp3 : sa.packet 3 = lo := by rw [a2]; simp [Mem.store]
  obtain ⟨sb, cb, b1, b2, b3, b4, b5, b6⟩ :=
    read_loop_data (stream_weight sa.stream + 1) ((hi : Int) * 0x100 + (lo : Int)) 0 sa ca tail
      payload extra a3 a4 a5 (by rw [hlen]; push_cast; ring) (by omega)
  refine ⟨sb, cb, ?_, ?_, b3, b5, by rw [b6, a6]⟩
  · unfold rtp_tcp_read_chunk
    rw [a1]
    simp only [hp0, hp1, hp2, hp3, and_self, if_true]
    rw [b1]
    simp only [Option.some.injEq, Prod.mk.injEq, and_true]
    push_cast; ring
  · rw [b2, ← hlen, Mem.load_store]

/-- C4 at header `[0x24,0x00,0x00,0x05]` followed by 5 bytes (and one more),
arriving in three pieces: a 5-byte frame. -/
theorem rtp_tcp_read_chunk_frame_witness :
    ((0 < 256 ∧ 5 < 256 ∧ 256 * 0 + 5 ≤ packet_size)
      ∧ (fresh_tcp [.data [0x24, 0x00, 0x00], .data [0x05, 1, 2], .data [3, 4, 5, 6]]).stream
          = [[0x24, 0x00, 0x00], [0x05, 1, 2], [3, 4, 5, 6]].map StreamEvent.data ++ []
      ∧ (∀ c ∈ [[0x24, 0x00, 0x00], [0x05, 1, 2], [3, 4, 5, 6]], c ≠ [])
      ∧ [[0x24, 0x00, 0x00], [0x05, 1, 2], [3, 4, 5, 6]].flatten
          = [0x24, 0x00, 0, 5] ++ [1, 2, 3, 4, 5] ++ [6]
      ∧ [1, 2, 3, 4, 5].length = 256 * 0 + 5)
    ∧ ∃ (st1 : TcpState) (chunks1 : List (List Nat)),
        rtp_tcp_read_chunk
            (fresh_tcp [.data [0x24, 0x00, 0x00], .data [0x05, 1, 2], .data [3, 4, 5, 6]])
          = some (5, st1)
        ∧ st1.packet.load 0 5 = [1, 2, 3, 4, 5]
        ∧ st1.stream = chunks1.map StreamEvent.data ++ []
        ∧ chunks1.flatten = [6]
        ∧ st1.events = [] :=
  ⟨by decide,
   rtp_tcp_read_chunk_frame
     (fresh_tcp [.data [0x24, 0x00, 0x00], .data [0x05, 1, 2], .data [3, 4, 5, 6]])
     [[0x24, 0x00, 0x00], [0x05, 1, 2], [3, 4, 5, 6]] [] 0 5 [1, 2, 3, 4, 5] [6]
     (by decide) (by decide) (by decide) rfl (by decide) rfl rfl⟩

/-- C5: when the first four bytes of the stream, split into non-empty pieces
in any way, do not start with `0x24, 0x00`, `rtp_tcp_read_chunk` returns 0
having taken exactly those four bytes from the stream and logged the header
error, and `rtp_tcp_receiver` leaves its loop: it forwards nothing and reads
nothing more. -/
theorem rtp_tcp_bad_marker_ends_connection (st : TcpState) (chunks : List (List Nat))
    (tail : List StreamEvent) (b0 b1 b2 b3 : Nat) (extra : List Nat)
    (hs : st.stream = chunks.map StreamEvent.data ++ tail)
    (hne : ∀ c ∈ chunks, c ≠ [])
    (hflat : chunks.flatten = [b0, b1, b2, b3] ++ extra)
    (hbad : ¬ (b0 = 0x24 ∧ b1 = 0x00)) :
    ∃ (st1 : TcpState) (chunks1 : List (List Nat)),
      rtp_tcp_read_chunk st = some (0, st1)
      ∧ st1.stream = chunks1.map StreamEvent.data ++ tail
      ∧ chunks1.flatten = extra
      ∧ st1.events = st.events ++ [.debug 1 "header error %x %x"]
      ∧ ∃ (st2 : TcpState), rtp_tcp_receiver st = some st2
          ∧ st2.stream = st1.stream
          ∧ st2.events = st.events ++
              [.debug 1 "header error %x %x", .debug 1 "RTP thread interrupted. terminating.",
               .close_new_sock, .close_sock, .output_stop] := by
  obtain ⟨sa, ca, a1, a2, a3, a4, a5, a6⟩ :=
    read_loop_data (stream_weight st.stream + 1) 4 0 st chunks tail [b0, b1, b2, b3]
      extra hs hne hflat (by simp) (by omega)
  have hp0 : sa.packet 0 = b0 := by rw [a2]; simp [Mem.store]
  have hp1 : sa.packet 1 = b1 := by rw [a2]; simp [Mem.store]
  have hchunk : rtp_tcp_read_chunk st
      = some (0, { sa with events := sa.events ++ [.debug 1 "header error %x %x"] }) := by
    unfold rtp_tcp_read_chunk
    rw [a1]
    simp only [hp0, hp1, hbad, if_false]
  refine ⟨_, ca, hchunk, a3, a5, by simp [a6], ?_⟩
  refine ⟨_, rtp_tcp_receiver_no_frame _ _ hchunk, rfl, ?_⟩
  simp [a6]

/-- C5 at a stream starting `0x23, 0x00`. -/
theorem rtp_tcp_bad_marker_ends_connection_witness :
    ((fresh_tcp [.data [0x23, 0x00], .data [0x00, 0x05, 1, 2, 3, 4, 5]]).stream
          = [[0x23, 0x00], [0x00, 0x05, 1, 2, 3, 4, 5]].map StreamEvent.data ++ []
      ∧ (∀ c ∈ [[0x23, 0x00], [0x00, 0x05, 1, 2, 3, 4, 5]], c ≠ [])
      ∧ [[0x23, 0x00], [0x00, 0x05, 1, 2, 3, 4, 5]].flatten
          = [0x23, 0x00, 0x00, 0x05] ++ [1, 2, 3, 4, 5]
      ∧ ¬ (0x23 = 0x24 ∧ 0x00 = 0x00))
    ∧ ∃ (st1 : TcpState) (chunks1 : List (List Nat)),
        rtp_tcp_read_chunk (fresh_tcp [.data [0x23, 0x00], .data [0x00, 0x05, 1, 2, 3, 4, 5]])
          = some (0, st1)
        ∧ st1.stream = chunks1.map StreamEvent.data ++ []
        ∧ chunks1.flatten = [1, 2, 3, 4, 5]
        ∧ st1.events = [] ++ [.debug 1 "header error %x %x"]
        ∧ ∃ (st2 : TcpState),
            rtp_tcp_receiver (fresh_tcp [.data [0x23, 0x00], .data [0x00, 0x05, 1, 2, 3, 4, 5]])
              = some st2
            ∧ st2.stream = st1.stream
            ∧ st2.events = [] ++
                [.debug 1 "header error %x %x", .debug 1 "RTP thread interrupted. terminating.",
                 .close_new_sock, .close_sock, .output_stop] :=
  ⟨by decide,
   rtp_tcp_bad_marker_ends_connection
     (fresh_tcp [.data [0x23, 0x00], .data [0x00, 0x05, 1, 2, 3, 4, 5]])
     [[0x23, 0x00], [0x00, 0x05, 1, 2, 3, 4, 5]] [] 0x23 0x00 0x00 0x05 [1, 2, 3, 4, 5]
     rfl (by decide) rfl (by decide)⟩

/-- C6: when the peer closes the stream before the four header bytes are
complete, or after a header `[0x24, 0x00, hi, lo]` and fewer than
`256*hi + lo` payload bytes, however the bytes before were split,
`rtp_tcp_read_chunk` returns 0 and `rtp_tcp_receiver` forwards nothing: it
only makes its closing calls. -/
theorem rtp_tcp_peer_closure_no_frame (st : TcpState) (chunks : List (List Nat))
    (tail : List StreamEvent)
    (hs : st.stream = chunks.map StreamEvent.data ++ tail)
    (hne : ∀ c ∈ chunks, c ≠ [])
    (htail : tail = [] ∨ ∃ r, tail = StreamEvent.closed :: r)
    (hshort : chunks.flatten.length < 4
      ∨ ∃ (hi lo : Nat) (part : List Nat),
          chunks.flatten = [0x24, 0x00, hi, lo] ++ part ∧ part.length < 256 * hi + lo) :
    ∃ (st1 : TcpState),
      rtp_tcp_read_chunk st = some (0, st1)
      ∧ st1.events = st.events
      ∧ ∃ (st2 : TcpState), rtp_tcp_receiver st = some st2
          ∧ st2.events = st.events ++
              [.debug 1 "RTP thread interrupted. terminating.", .close_new_sock, .close_sock,
               .output_stop] := by
  have hchunk : ∃ (st1 : TcpState), rtp_tcp_read_chunk st = some (0, st1)
      ∧ st1.events = st.events := by
    rcases hshort with h4 | ⟨hi, lo, part, hflat, hpart⟩
    · obtain ⟨sa, a1, _, a3⟩ :=
        read_loop_closed (stream_weight st.stream + 1) 4 0 st chunks tail hs hne htail
          (by omega) (by omega)
      refine ⟨sa, ?_, a3⟩
      unfold rtp_tcp_read_chunk
      rw [a1]
    · obtain ⟨sa, ca, a1, a2, a3, a4, a5, a6⟩ :=
        read_loop_data (stream_weight st.stream + 1) 4 0 st chunks tail [0x24, 0x00, hi, lo]
          part hs hne hflat (by simp) (by omega)
      have hp0 : sa.packet 0 = 0x24 := by rw [a2]; simp [Mem.store]
      have hp1 : sa.packet 1 = 0x00 := by rw [a2]; simp [Mem.store]
      have hp2 : sa.packet 2 = hi := by rw [a2]; simp [Mem.store]
      have hp3 : sa.packet 3 = lo := by rw [a2]; simp [Mem.store]
      obtain ⟨sb, b1, _, b3⟩ :=
        read_loop_closed (stream_weight sa.stream + 1) ((hi : Int) * 0x100 + (lo : Int)) 0 sa ca
          tail a3 a4 htail (by rw [a5]; omega) (by omega)
      refine ⟨sb, ?_, by rw [b3, a6]⟩
      unfold rtp_tcp_read_chunk
      rw [a1]
      simp only [hp0, hp1, hp2, hp3, and_self, if_true]
      rw [b1]
  obtain ⟨st1, h1, h2⟩ := hchunk
  refine ⟨st1, h1, h2, _, rtp_tcp_receiver_no_frame _ _ h1, ?_⟩
  simp [h2]

/-- C6 at a header announcing 5 bytes followed by 4 bytes and closure. -/
theorem rtp_tcp_peer_closure_no_frame_witness :
    ((fresh_tcp [.data [0x24, 0x00, 0x00, 0x05, 1, 2], .data [3, 4], .closed]).stream
          = [[0x24, 0x00, 0x00, 0x05, 1, 2], [3, 4]].map StreamEvent.data ++ [.closed]
      ∧ (∀ c ∈ [[0x24, 0x00, 0x00, 0x05, 1, 2], [3, 4]], c ≠ [])
      ∧ [[0x24, 0x00, 0x00, 0x05, 1, 2], [3, 4]].flatten = [0x24, 0x00, 0, 5] ++ [1, 2, 3, 4]
      ∧ [1, 2, 3, 4].length < 256 * 0 + 5)
    ∧ ∃ (st1 : TcpState),
        rtp_tcp_read_chunk
            (fresh_tcp [.data [0x24, 0x00, 0x00, 0x05, 1, 2], .data [3, 4], .closed])
          = some (0, st1)
        ∧ st1.events = []
        ∧ ∃ (st2 : TcpState),
            rtp_tcp_receiver
                (fresh_tcp [.data [0x24, 0x00, 0x00, 0x05, 1, 2], .data [3, 4], .closed])
              = some st2
            ∧ st2.events = [] ++
                [.debug 1 "RTP thread interrupted. terminating.", .close_new_sock, .close_sock,
                 .output_stop] :=
  ⟨by decide,
   rtp_tcp_peer_closure_no_frame
     (fresh_tcp [.data [0x24, 0x00, 0x00, 0x05, 1, 2], .data [3, 4], .closed])
     [[0x24, 0x00, 0x00, 0x05, 1, 2], [3, 4]] [.closed] rfl (by decide)
     (Or.inr ⟨[], rfl⟩) (Or.inr ⟨0, 5, [1, 2, 3, 4], rfl, by decide⟩)⟩

/-! ## Session lifecycle: theorems -/

/-- When `socket` and `bind` succeed `bind_tcp_port` returns port 6000. -/
theorem bind_tcp_port_permitted (env : SockEnv) (s : RtpState)
    (h1 : 0 ≤ env.socket_ret) (h2 : 0 ≤ env.bind_ret) :
    ∃ s1, bind_tcp_port env s = .returned 6000 s1 := by
  have h1n : ¬ env.socket_ret < 0 := by omega
  have h2n : ¬ env.bind_ret < 0 := by omega
  unfold bind_tcp_port
  simp [h1n, h2n]

/-- When `getaddrinfo` and `bind` succeed `bind_port` returns the local port. -/
theorem bind_port_permitted (env : SockEnv) (s : RtpState)
    (h1 : 0 ≤ env.getaddrinfo_ret) (h2 : 0 ≤ env.bind_ret) :
    ∃ s1, bind_port env s = .returned ((env.local_port % 65536 : Nat) : Int) s1 := by
  have h1n : ¬ env.getaddrinfo_ret < 0 := by omega
  have h2n : ¬ env.bind_ret < 0 := by omega
  unfold bind_port
  simp [h1n, h2n]

/-- The `die` calls of `bind_tcp_port` are not the usage error of `rtp_setup`. -/
theorem bind_tcp_port_died_msg (env : SockEnv) (s s1 : RtpState) (msg : String)
    (h : bind_tcp_port env s = .died msg s1) :
    msg ≠ "rtp_setup called with active stream!" := by
  unfold bind_tcp_port at h
  simp only at h
  split_ifs at h <;> (injection h with h1 _; subst h1; decide)

/-- The `die` calls of `bind_port` are not the usage error of `rtp_setup`. -/
theorem bind_port_died_msg (env : SockEnv) (s s1 : RtpState) (msg : String)
    (h : bind_port env s = .died msg s1) :
    msg ≠ "rtp_setup called with active stream!" := by
  unfold bind_port at h
  simp only at h
  split_ifs at h <;> (injection h with h1 _; subst h1; decide)

/-- C9: `rtp_setup` reaches its usage-error `die`, with the state still as it
was on entry, exactly when `running` is set, and sockets permitting it does
not abort otherwise; `rtp_shutdown` and `rtp_request_resend` abort, with the
state still as it was on entry, exactly when `running` is not set. -/
theorem out_of_state_calls_rejected :
    (∀ (env : SockEnv) (remote : SockAddr) (type cport tport : Int) (s : RtpState),
        (rtp_setup env remote type cport tport s
            = .died "rtp_setup called with active stream!" s ↔ s.running ≠ 0)
        ∧ (∀ s1, rtp_setup env remote type cport tport s
            = .died "rtp_setup called with active stream!" s1 → s.running ≠ 0)
        ∧ (sockets_permit env type →
            ((rtp_setup env remote type cport tport s).aborted = true ↔ s.running ≠ 0)))
    ∧ (∀ (s : RtpState),
        (rtp_shutdown s = .died "rtp_shutdown called without active stream!" s ↔ s.running = 0)
        ∧ ((rtp_shutdown s).aborted = true ↔ s.running = 0))
    ∧ (∀ (first last : Nat) (s : RtpState),
        (rtp_request_resend first last s
            = .died "rtp_request_resend called without active stream!" s ↔ s.running = 0)
        ∧ ((rtp_request_resend first last s).aborted = true ↔ s.running = 0)) := by
  refine ⟨?_, ?_, ?_⟩
  · intro env remote type cport tport s
    have key : ∀ s1, rtp_setup env remote type cport tport s
        = .died "rtp_setup called with active stream!" s1 → s.running ≠ 0 := by
      intro s1 h hr
      unfold rtp_setup at h
      simp only [hr, ne_eq, not_true_eq_false, if_false] at h
      split at h
      · rename_i msg s3 hb
        injection h with hm _
        subst hm
        split_ifs at hb <;> first
          | exact bind_tcp_port_died_msg _ _ _ _ hb rfl
          | exact bind_port_died_msg _ _ _ _ hb rfl
      · exact absurd h (by simp)
    refine ⟨⟨key s, fun hr => by simp [rtp_setup, hr]⟩, key, ?_⟩
    intro hperm
    constructor
    · intro hab hr
      unfold rtp_setup at hab
      by_cases ht : type = 0
      · simp only [sockets_permit, ht, ne_eq, not_true_eq_false, if_false] at hperm
        simp only [hr, ht, ne_eq, not_true_eq_false, if_false] at hab
        obtain ⟨s1, h1⟩ := bind_port_permitted env
          { s.emit (.debug 1 "rtp_setup: cport=%d tport=%d") with
            rtp_client := { remote with port := (cport % 65536).toNat } } hperm.1 hperm.2
        rw [h1] at hab
        simp [Outcome.aborted] at hab
      · simp only [sockets_permit, ht, ne_eq, not_false_eq_true, if_true] at hperm
        simp only [hr, ht, ne_eq, not_true_eq_false, not_false_eq_true, if_true, if_false] at hab
        obtain ⟨s1, h1⟩ := bind_tcp_port_permitted env
          { s.emit (.debug 1 "rtp_setup: cport=%d tport=%d") with
            rtp_client := { remote with port := (cport % 65536).toNat } } hperm.1 hperm.2
        rw [h1] at hab
        simp [Outcome.aborted] at hab
    · intro hr
      simp [rtp_setup, hr, Outcome.aborted]
  · intro s
    by_cases hr : s.running = 0
    · simp [rtp_shutdown, hr, Outcome.aborted]
    · simp [rtp_shutdown, hr, Outcome.aborted]
  · intro first last s
    by_cases hr : s.running = 0
    · simp [rtp_request_resend, hr, Outcome.aborted]
    · simp [rtp_request_resend, hr, Outcome.aborted]

/-- C9 at the idle state: `rtp_shutdown` aborts there and leaves the state
as it was, and `rtp_setup`, sockets permitting, does not abort. -/
theorem out_of_state_calls_rejected_witness :
    rtp_shutdown idle_session
        = .died "rtp_shutdown called without active stream!" idle_session
    ∧ ¬ ((rtp_setup ⟨0, 4, 0, 50000⟩ ⟨2, 0x0A000001, 0⟩ 0 6001 6002 idle_session).aborted
          = true) :=
  ⟨(out_of_state_calls_rejected.2.1 idle_session).1.mpr rfl,
   fun h =>
     (((out_of_state_calls_rejected.1 ⟨0, 4, 0, 50000⟩ ⟨2, 0x0A000001, 0⟩ 0 6001 6002
          idle_session).2.2 (by decide)).mp h) rfl⟩

/-! ## Datagram classifier: lemmas -/

/-- Flipping bit `0x80` of a byte does not change the byte masked with `0x7F`. -/
theorem xor_marker_masked (x : Nat) : (x ^^^ 0x80) &&& 0x7F = x &&& 0x7F := by
  apply Nat.eq_of_testBit_eq
  intro i
  have h80 : Nat.testBit 0x80 i = decide (7 = i) := by
    have := @Nat.testBit_two_pow 7 i
    simpa using this
  have h7f : Nat.testBit 0x7F i = decide (i < 7) := by
    have := @Nat.testBit_two_pow_sub_one 7 i
    simpa using this
  simp only [Nat.testBit_and, Nat.testBit_xor, h80, h7f]
  by_cases h : i < 7
  · have : ¬ 7 = i := by omega
    simp [h, this]
  · simp [h]

/-- Replacing one byte of the stored run changes no other offset. -/
theorem Mem.store_zero_set (m : Mem) (bs : List Nat) (j : Nat) (v : Nat) (i : Int)
    (hi : i ≠ (j : Int)) : (m.store 0 (bs.set j v)) i = (m.store 0 bs) i := by
  simp only [Mem.store, List.length_set, List.getD_eq_getElem?_getD, List.getElem?_set,
    zero_add, sub_zero]
  by_cases hc : 0 ≤ i ∧ i < (bs.length : Int)
  · have h : ¬ j = i.toNat := by omega
    rw [if_pos hc, if_pos hc, if_neg h]
  · rw [if_neg hc, if_neg hc]

/-- A byte replaced in the stored run is read back at its index. -/
theorem Mem.store_zero_set_self (m : Mem) (bs : List Nat) (j : Nat) (v : Nat)
    (hj : j < bs.length) : (m.store 0 (bs.set j v)) (j : Int) = v := by
  simp [Mem.store, hj]

/-- Memories that agree on a range load the same bytes from it. -/
theorem Mem.load_congr (m1 m2 : Mem) (off : Int) (len : Nat)
    (h : ∀ k : Nat, k < len → m1 (off + (k : Int)) = m2 (off + (k : Int))) :
    m1.load off len = m2.load off len := by
  unfold Mem.load
  apply List.map_congr_left
  intro k hk
  exact h k (List.mem_range.mp hk)

/-- Loading from offset `k` of a run stored at offset 0 gives the run less its
first `k` bytes. -/
theorem Mem.load_store_drop (m : Mem) (bs : List Nat) (k : Nat) (hk : k ≤ bs.length) :
    (m.store 0 bs).load (k : Int) (bs.length - k) = bs.drop k := by
  apply List.ext_getElem
  · simp [Mem.load]
  · intro i h1 h2
    simp only [Mem.load, List.length_map, List.length_range] at h1
    simp only [Mem.load, List.getElem_map, List.getElem_range, Mem.store, List.getElem_drop]
    have hlt : k + i < bs.length := by omega
    have hc : (0 : Int) ≤ (k : Int) + (i : Int) ∧ (k : Int) + (i : Int) < 0 + (bs.length : Int) := by
      omega
    rw [if_pos hc]
    have : ((k : Int) + (i : Int) - 0).toNat = k + i := by omega
    rw [this, List.getD_eq_getElem _ _ hlt]

/-- The calls of one iteration on a received datagram, branch by branch, in
terms of the buffer after `recv` and the number of bytes received. -/
theorem rtp_receiver_iter_events (bs : List Nat) (packet : Mem) :
    (rtp_receiver_iter 0 (.datagram bs) packet).events =
      if masked_type (packet.store 0 (bs.take 2048)) = 0x54 then []
      else if masked_type (packet.store 0 (bs.take 2048)) = 0x60 then
        if (16 : Int) ≤ ((bs.take 2048).length : Int) - 12 then
          [.put_packet
            (ntohs_load ((packet.store 0 (bs.take 2048)) 2) ((packet.store 0 (bs.take 2048)) 3))
            ((packet.store 0 (bs.take 2048)).load 12 (((bs.take 2048).length : Int) - 12).toNat)
            (((bs.take 2048).length : Int) - 12)]
        else [.debug 1 "Unknown RTP packet of type 0x%02X length %d seqno %d"]
      else if masked_type (packet.store 0 (bs.take 2048)) = 0x56 then
        if (16 : Int) ≤ ((bs.take 2048).length : Int) - 16 then
          [.put_packet
            (ntohs_load ((packet.store 0 (bs.take 2048)) 6) ((packet.store 0 (bs.take 2048)) 7))
            ((packet.store 0 (bs.take 2048)).load 16 (((bs.take 2048).length : Int) - 16).toNat)
            (((bs.take 2048).length : Int) - 16)]
        else if ntohs_load ((packet.store 0 (bs.take 2048)) 6)
            ((packet.store 0 (bs.take 2048)) 7) = 0 then
          [.debug 2 "resend-related request packet received, ignoring."]
        else [.debug 1 "Unknown RTP packet of type 0x%02X length %d seqno %d"]
      else [.warn "Unknown RTP packet of type 0x%02X length %d"] := by
  unfold masked_type rtp_receiver_iter
  simp only [ne_eq, not_true_eq_false, if_false]
  generalize bs.take 2048 = got
  by_cases h54 : (packet.store 0 got) 1 &&& 0x7F = 0x54
  · simp [h54]
  · by_cases h60 : (packet.store 0 got) 1 &&& 0x7F = 0x60
    · by_cases hp : (16 : Int) ≤ (got.length : Int) - 12
      · simp [h60, hp]
      · simp [h60, hp]
    · by_cases h56 : (packet.store 0 got) 1 &&& 0x7F = 0x56
      · by_cases hp : (16 : Int) ≤ (got.length : Int) - 16
        · have hp1 : (16 : Int) ≤ (got.length : Int) - 4 - 12 := by omega
          have e1 : (got.length : Int) - 4 - 12 = (got.length : Int) - 16 := by omega
          simp [h56, hp, hp1, e1]
        · have hp1 : ¬ (16 : Int) ≤ (got.length : Int) - 4 - 12 := by omega
          by_cases hs : ntohs_load ((packet.store 0 got) 6) ((packet.store 0 got) 7) = 0
          · simp [h56, hp, hp1, hs]
          · simp [h56, hp, hp1, hs]
      · simp [h54, h60, h56]

/-- For bytes, `ntohs` of two consecutive bytes is `256 * b0 + b1`. -/
theorem ntohs_load_bytes (b0 b1 : Nat) (h0 : b0 < 256) (h1 : b1 < 256) :
    ntohs_load b0 b1 = 256 * b0 + b1 := by
  unfold ntohs_load
  omega

/-- An element read with a default from a list of bytes is a byte. -/
theorem getD_byte (bs : List Nat) (hbytes : ∀ b ∈ bs, b < 256) (i : Nat) :
    bs.getD i 0 < 256 := by
  by_cases hi : i < bs.length
  · rw [List.getD_eq_getElem _ _ hi]
    exact hbytes _ (List.getElem_mem hi)
  · rw [List.getD_eq_default _ _ (by omega)]
    decide

/-- C12: for a received datagram of length `n` whose masked type byte is
`0x56` (resend-audio), `player_put_packet` is called if and only if
`n >= 32`, and then exactly once, with sequence number `256*b[6] + b[7]`,
payload length `n - 16` and payload bytes `b[16..n)`. -/
theorem resend_audio_forwarding (bs : List Nat) (packet : Mem)
    (hn : bs.length ≤ 2048) (hbytes : ∀ b ∈ bs, b < 256)
    (htype : masked_type (packet.store 0 bs) = 0x56) :
    (put_packet_calls (rtp_receiver_iter 0 (.datagram bs) packet).events ≠ [] ↔ 32 ≤ bs.length)
    ∧ (32 ≤ bs.length →
        (rtp_receiver_iter 0 (.datagram bs) packet).events
            = [.put_packet (256 * bs.getD 6 0 + bs.getD 7 0) (bs.drop 16)
                ((bs.length : Int) - 16)]
          ∧ (bs.drop 16).length = bs.length - 16) := by
  have ht : bs.take 2048 = bs := List.take_of_length_le hn
  have hev := rtp_receiver_iter_events bs packet
  rw [ht] at hev
  have h54 : ¬ masked_type (packet.store 0 bs) = 0x54 := by rw [htype]; decide
  have h60 : ¬ masked_type (packet.store 0 bs) = 0x60 := by rw [htype]; decide
  rw [if_neg h54, if_neg h60, if_pos htype] at hev
  have hfwd : 32 ≤ bs.length →
      (rtp_receiver_iter 0 (.datagram bs) packet).events
        = [.put_packet (256 * bs.getD 6 0 + bs.getD 7 0) (bs.drop 16)
            ((bs.length : Int) - 16)] := by
    intro h32
    have hp : (16 : Int) ≤ (bs.length : Int) - 16 := by omega
    have b6 : (packet.store 0 bs) 6 = bs.getD 6 0 := Mem.store_zero_apply packet bs 6 (by omega)
    have b7 : (packet.store 0 bs) 7 = bs.getD 7 0 := Mem.store_zero_apply packet bs 7 (by omega)
    have hl : ((bs.length : Int) - 16).toNat = bs.length - 16 := by omega
    have hd := Mem.load_store_drop packet bs 16 (by omega)
    rw [hev, if_pos hp, b6, b7, hl]
    rw [ntohs_load_bytes _ _ (getD_byte bs hbytes 6) (getD_byte bs hbytes 7)]
    exact congrArg (fun p => [Event.put_packet _ p _]) hd
  refine ⟨⟨?_, ?_⟩, fun h32 => ⟨hfwd h32, by simp⟩⟩
  · intro hne
    by_contra hlt
    have hp : ¬ (16 : Int) ≤ (bs.length : Int) - 16 := by omega
    rw [hev, if_neg hp] at hne
    split_ifs at hne <;> exact hne rfl
  · intro h32
    rw [hfwd h32]
    simp [put_packet_calls]

/-- C13: for a forwarded datagram of masked type `0x60` (length `n >= 28`)
the one call to `player_put_packet` carries the sequence number
`256*b[2] + b[3]` and as payload exactly the bytes `b[12..n)`, whatever the
buffer held before. -/
theorem audio_datagram_decoding (bs : List Nat) (packet : Mem)
    (hn : bs.length ≤ 2048) (hbytes : ∀ b ∈ bs, b < 256)
    (htype : masked_type (packet.store 0 bs) = 0x60) (h28 : 28 ≤ bs.length) :
    (rtp_receiver_iter 0 (.datagram bs) packet).events
        = [.put_packet (256 * bs.getD 2 0 + bs.getD 3 0) (bs.drop 12) ((bs.length : Int) - 12)]
    ∧ (bs.drop 12).length = bs.length - 12 := by
  have ht : bs.take 2048 = bs := List.take_of_length_le hn
  have hev := rtp_receiver_iter_events bs packet
  rw [ht] at hev
  have h54 : ¬ masked_type (packet.store 0 bs) = 0x54 := by rw [htype]; decide
  rw [if_neg h54, if_pos htype] at hev
  have hp : (16 : Int) ≤ (bs.length : Int) - 12 := by omega
  have b2 : (packet.store 0 bs) 2 = bs.getD 2 0 := Mem.store_zero_apply packet bs 2 (by omega)
  have b3 : (packet.store 0 bs) 3 = bs.getD 3 0 := Mem.store_zero_apply packet bs 3 (by omega)
  have hl : ((bs.length : Int) - 12).toNat = bs.length - 12 := by omega
  have hd := Mem.load_store_drop packet bs 12 (by omega)
  refine ⟨?_, by simp⟩
  rw [hev, if_pos hp, b2, b3, hl]
  rw [ntohs_load_bytes _ _ (getD_byte bs hbytes 2) (getD_byte bs hbytes 3)]
  exact congrArg (fun p => [Event.put_packet _ p _]) hd

/-- The `player_put_packet` calls of two stretches of calls are those of the
first followed by those of the second. -/
theorem put_packet_calls_append (xs ys : List Event) :
    put_packet_calls (xs ++ ys) = put_packet_calls xs ++ put_packet_calls ys := by
  induction xs with
  | nil => rfl
  | cons e es ih => cases e <;> simp [put_packet_calls, ih]

/-- One iteration of `rtp_receiver` makes no `player_put_packet` call, or one
call, on a datagram of masked type `0x60` or `0x56`, with a length between 16
and 2036 that is the number of payload bytes handed over. -/
theorem rtp_receiver_iter_put_packet (flag : Int) (r : RecvResult) (packet : Mem) :
    put_packet_calls (rtp_receiver_iter flag r packet).events = []
    ∨ ∃ (bs : List Nat) (seqno : Nat) (payload : List Nat) (plen : Int),
        flag = 0 ∧ r = .datagram bs
        ∧ put_packet_calls (rtp_receiver_iter flag r packet).events = [(seqno, payload, plen)]
        ∧ 16 ≤ plen ∧ plen ≤ 2036 ∧ (payload.length : Int) = plen
        ∧ (masked_type (packet.store 0 (bs.take 2048)) = 0x60
            ∨ masked_type (packet.store 0 (bs.take 2048)) = 0x56) := by
  by_cases hf : flag = 0
  · subst hf
    cases r with
    | error => left; simp [rtp_receiver_iter, put_packet_calls]
    | datagram bs =>
      have hlen : ((bs.take 2048).length : Int) ≤ 2048 := by
        have := List.length_take_le 2048 bs
        omega
      rw [rtp_receiver_iter_events]
      split_ifs with h54 h60 hp h56 hp2 hs
      · left; rfl
      · right
        refine ⟨bs, _, _, _, rfl, rfl, rfl, hp, by omega, ?_, Or.inl h60⟩
        rw [Mem.load_length]; omega
      · left; rfl
      · right
        refine ⟨bs, _, _, _, rfl, rfl, rfl, hp2, by omega, ?_, Or.inr h56⟩
        rw [Mem.load_length]; omega
      · left; rfl
      · left; rfl
      · left; rfl
  · left
    simp [rtp_receiver_iter, hf, put_packet_calls]

/-- C15: every iteration of `rtp_receiver` makes at most one
`player_put_packet` call; such a call carries a payload length of at least 16
and at most 2036, equal to the number of payload bytes, and comes from a
datagram whose masked type is `0x60` or `0x56`; so over any sequence of
inputs `rtp_receiver` makes at most one call per input, each with a length
between 16 and 2036. -/
theorem audio_packet_invariant :
    (∀ (flag : Int) (r : RecvResult) (packet : Mem),
        (put_packet_calls (rtp_receiver_iter flag r packet).events).length ≤ 1)
    ∧ (∀ (bs : List Nat) (packet : Mem) (c : Nat × List Nat × Int),
        c ∈ put_packet_calls (rtp_receiver_iter 0 (.datagram bs) packet).events →
          16 ≤ c.2.2 ∧ c.2.2 ≤ 2036 ∧ (c.2.1.length : Int) = c.2.2
          ∧ (masked_type (packet.store 0 (bs.take 2048)) = 0x60
              ∨ masked_type (packet.store 0 (bs.take 2048)) = 0x56))
    ∧ (∀ (packet : Mem) (inputs : List (Int × RecvResult)),
        (put_packet_calls (rtp_receiver packet inputs).2).length ≤ inputs.length
        ∧ ∀ c ∈ put_packet_calls (rtp_receiver packet inputs).2,
            16 ≤ c.2.2 ∧ c.2.2 ≤ 2036 ∧ (c.2.1.length : Int) = c.2.2) := by
  refine ⟨?_, ?_, ?_⟩
  · intro flag r packet
    rcases rtp_receiver_iter_put_packet flag r packet with h | ⟨_, _, _, _, _, _, h, _⟩
    · rw [h]; simp
    · rw [h]; simp
  · intro bs packet c hc
    rcases rtp_receiver_iter_put_packet 0 (.datagram bs) packet with
      h | ⟨bs1, seqno, payload, plen, _, hr, h, h1, h2, h3, h4⟩
    · rw [h] at hc; simp at hc
    · rw [h] at hc
      simp only [List.mem_singleton] at hc
      subst hc
      injection hr with hr
      subst hr
      exact ⟨h1, h2, h3, h4⟩
  · have hloop : ∀ (inputs : List (Int × RecvResult)) (packet : Mem),
        (put_packet_calls (rtp_receiver_loop packet inputs).2).length ≤ inputs.length
        ∧ ∀ c ∈ put_packet_calls (rtp_receiver_loop packet inputs).2,
            16 ≤ c.2.2 ∧ c.2.2 ≤ 2036 ∧ (c.2.1.length : Int) = c.2.2 := by
      intro inputs
      induction inputs with
      | nil => intro packet; simp [rtp_receiver_loop, put_packet_calls]
      | cons x rest ih =>
        intro packet
        obtain ⟨flag, r⟩ := x
        have hit := rtp_receiver_iter_put_packet flag r packet
        have hone : (put_packet_calls (rtp_receiver_iter flag r packet).events).length ≤ 1
            ∧ ∀ c ∈ put_packet_calls (rtp_receiver_iter flag r packet).events,
                16 ≤ c.2.2 ∧ c.2.2 ≤ 2036 ∧ (c.2.1.length : Int) = c.2.2 := by
          rcases hit with h | ⟨_, _, _, _, _, _, h, h1, h2, h3, _⟩
          · rw [h]; simp
          · rw [h]
            refine ⟨by simp, ?_⟩
            intro c hc
            simp only [List.mem_singleton] at hc
            subst hc
            exact ⟨h1, h2, h3⟩
        unfold rtp_receiver_loop
        simp only
        cases hl : (rtp_receiver_iter flag r packet).leave with
        | some why =>
          simp only
          exact ⟨by simp only [List.length_cons]; omega, hone.2⟩
        | none =>
          simp only [put_packet_calls_append, List.length_append, List.length_cons]
          obtain ⟨ih1, ih2⟩ := ih (rtp_receiver_iter flag r packet).packet
          refine ⟨by omega, ?_⟩
          intro c hc
          rcases List.mem_append.mp hc with hc | hc
          · exact hone.2 c hc
          · exact ih2 c hc
    intro packet inputs
    obtain ⟨h1, h2⟩ := hloop inputs packet
    unfold rtp_receiver
    rcases hout : rtp_receiver_loop packet inputs with ⟨why, evs⟩
    rw [hout] at h1 h2
    cases why with
    | none => exact ⟨h1, h2⟩
    | some w =>
      simp only [put_packet_calls_append]
      have : put_packet_calls
          [Event.debug 1 "RTP thread interrupted. terminating.", Event.close_sock] = [] := rfl
      rw [this, List.append_nil]
      exact ⟨h1, h2⟩

/-- The iteration on a received datagram never leaves the loop and keeps the
buffer as `recv` filled it. -/
theorem rtp_receiver_iter_datagram (bs : List Nat) (packet : Mem) :
    (rtp_receiver_iter 0 (.datagram bs) packet).leave = none
    ∧ (rtp_receiver_iter 0 (.datagram bs) packet).packet = packet.store 0 (bs.take 2048) := by
  unfold rtp_receiver_iter
  simp only [ne_eq, not_true_eq_false, if_false]
  split_ifs <;> exact ⟨rfl, rfl⟩

/-- The calls of an iteration are settled by the number of bytes received, the
masked type byte, bytes 2, 3, 6, 7 and the bytes from offset 12 up to the
number received. -/
theorem rtp_receiver_iter_events_congr (bs1 bs2 : List Nat) (p1 p2 : Mem)
    (hlen : (bs1.take 2048).length = (bs2.take 2048).length)
    (htype : masked_type (p1.store 0 (bs1.take 2048)) = masked_type (p2.store 0 (bs2.take 2048)))
    (h2 : (p1.store 0 (bs1.take 2048)) 2 = (p2.store 0 (bs2.take 2048)) 2)
    (h3 : (p1.store 0 (bs1.take 2048)) 3 = (p2.store 0 (bs2.take 2048)) 3)
    (h6 : (p1.store 0 (bs1.take 2048)) 6 = (p2.store 0 (bs2.take 2048)) 6)
    (h7 : (p1.store 0 (bs1.take 2048)) 7 = (p2.store 0 (bs2.take 2048)) 7)
    (hpay : ∀ i : Int, 12 ≤ i → i < ((bs1.take 2048).length : Int) →
      (p1.store 0 (bs1.take 2048)) i = (p2.store 0 (bs2.take 2048)) i) :
    (rtp_receiver_iter 0 (.datagram bs1) p1).events
      = (rtp_receiver_iter 0 (.datagram bs2) p2).events := by
  rw [rtp_receiver_iter_events, rtp_receiver_iter_events, ← hlen, ← htype, ← h2, ← h3, ← h6, ← h7]
  have l12 : (p1.store 0 (bs1.take 2048)).load 12 (((bs1.take 2048).length : Int) - 12).toNat
      = (p2.store 0 (bs2.take 2048)).load 12 (((bs1.take 2048).length : Int) - 12).toNat :=
    Mem.load_congr _ _ _ _ (fun k hk => hpay _ (by omega) (by omega))
  have l16 : (p1.store 0 (bs1.take 2048)).load 16 (((bs1.take 2048).length : Int) - 16).toNat
      = (p2.store 0 (bs2.take 2048)).load 16 (((bs1.take 2048).length : Int) - 16).toNat :=
    Mem.load_congr _ _ _ _ (fun k hk => hpay _ (by omega) (by omega))
  rw [← l12, ← l16]

/-- C18: for a datagram of length at least 2, flipping bit `0x80` of byte 1
changes neither the calls the iteration makes (the decision and, when
forwarding, the sequence number and payload) nor its going round the loop
again; nor does replacing byte 0 by any value. -/
theorem marker_bit_and_byte0_ignored (bs : List Nat) (packet : Mem) (hlen : 2 ≤ bs.length) :
    ((rtp_receiver_iter 0 (.datagram (bs.set 1 (bs.getD 1 0 ^^^ 0x80))) packet).events
        = (rtp_receiver_iter 0 (.datagram bs) packet).events
      ∧ (rtp_receiver_iter 0 (.datagram (bs.set 1 (bs.getD 1 0 ^^^ 0x80))) packet).leave
        = (rtp_receiver_iter 0 (.datagram bs) packet).leave)
    ∧ ∀ x : Nat,
        (rtp_receiver_iter 0 (.datagram (bs.set 0 x)) packet).events
          = (rtp_receiver_iter 0 (.datagram bs) packet).events
        ∧ (rtp_receiver_iter 0 (.datagram (bs.set 0 x)) packet).leave
          = (rtp_receiver_iter 0 (.datagram bs) packet).leave := by
  have hleave : ∀ b : List Nat, (rtp_receiver_iter 0 (.datagram b) packet).leave = none :=
    fun b => (rtp_receiver_iter_datagram b packet).1
  have hl2 : 2 ≤ (bs.take 2048).length := by
    rw [List.length_take]; omega
  have key : ∀ (j v : Nat), (j = 0 ∨ (j = 1 ∧ v &&& 0x7F = bs.getD 1 0 &&& 0x7F)) →
      (rtp_receiver_iter 0 (.datagram (bs.set j v)) packet).events
        = (rtp_receiver_iter 0 (.datagram bs) packet).events := by
    intro j v hj
    have hne : ∀ i : Int, 2 ≤ i → i ≠ (j : Int) := by
      intro i hi
      rcases hj with h | ⟨h, _⟩ <;> omega
    apply rtp_receiver_iter_events_congr
    · simp [List.set_take]
    · rw [List.set_take]
      unfold masked_type
      rcases hj with h | ⟨h, hv⟩
      · subst h
        exact congrArg (· &&& 0x7F) (Mem.store_zero_set packet _ 0 v 1 (by decide))
      · subst h
        have e1 := Mem.store_zero_set_self packet (bs.take 2048) 1 v (by omega)
        have e2 := Mem.store_zero_apply packet (bs.take 2048) 1 (by omega)
        have e3 : (bs.take 2048).getD 1 0 = bs.getD 1 0 := by
          rw [List.getD_eq_getElem _ _ (by omega), List.getD_eq_getElem _ _ (by omega)]
          simp
        simp only [Nat.cast_one] at e1 e2
        rw [e1, e2, e3, hv]
    · rw [List.set_take]; exact Mem.store_zero_set packet _ j v 2 (hne 2 (by decide))
    · rw [List.set_take]; exact Mem.store_zero_set packet _ j v 3 (hne 3 (by decide))
    · rw [List.set_take]; exact Mem.store_zero_set packet _ j v 6 (hne 6 (by decide))
    · rw [List.set_take]; exact Mem.store_zero_set packet _ j v 7 (hne 7 (by decide))
    · intro i hi _
      rw [List.set_take]; exact Mem.store_zero_set packet _ j v i (hne i (by omega))
  refine ⟨⟨key 1 _ (Or.inr ⟨rfl, xor_marker_masked _⟩), by rw [hleave, hleave]⟩, fun x => ?_⟩
  exact ⟨key 0 x (Or.inl rfl), by rw [hleave, hleave]⟩

/-- C20: for any two prior contents of the receive buffer and every datagram,
of any length, the iteration makes the same `player_put_packet` call (same
sequence number, payload and length), or none in both cases. -/
theorem forwarding_independent_of_stale_buffer (bs : List Nat) (p1 p2 : Mem) :
    put_packet_calls (rtp_receiver_iter 0 (.datagram bs) p1).events
      = put_packet_calls (rtp_receiver_iter 0 (.datagram bs) p2).events := by
  by_cases h28 : 28 ≤ (bs.take 2048).length
  · have hin : ∀ (p : Mem) (i : Nat), i < (bs.take 2048).length →
        (p.store 0 (bs.take 2048)) (i : Int) = (bs.take 2048).getD i 0 :=
      fun p i hi => Mem.store_zero_apply p _ i hi
    have hsame : ∀ i : Nat, i < (bs.take 2048).length →
        (p1.store 0 (bs.take 2048)) (i : Int) = (p2.store 0 (bs.take 2048)) (i : Int) :=
      fun i hi => by rw [hin p1 i hi, hin p2 i hi]
    have hev : (rtp_receiver_iter 0 (.datagram bs) p1).events
        = (rtp_receiver_iter 0 (.datagram bs) p2).events := by
      apply rtp_receiver_iter_events_congr bs bs p1 p2 rfl
      · unfold masked_type
        exact congrArg (· &&& 0x7F) (hsame 1 (by omega))
      · exact hsame 2 (by omega)
      · exact hsame 3 (by omega)
      · exact hsame 6 (by omega)
      · exact hsame 7 (by omega)
      · intro i h12 hlt
        have := hsame i.toNat (by omega)
        rwa [Int.toNat_of_nonneg (by omega)] at this
    rw [hev]
  · have hnone : ∀ p : Mem,
        put_packet_calls (rtp_receiver_iter 0 (.datagram bs) p).events = [] := by
      intro p
      have hp12 : ¬ (16 : Int) ≤ ((bs.take 2048).length : Int) - 12 := by omega
      have hp16 : ¬ (16 : Int) ≤ ((bs.take 2048).length : Int) - 16 := by omega
      rw [rtp_receiver_iter_events, if_neg hp12, if_neg hp16]
      split_ifs <;> rfl
    rw [hnone p1, hnone p2]

/-! ## Session lifecycle: the state machine -/

/-- When `rtp_setup` returns, it was called with `running` clear and leaves
`running = 1` and the shutdown flag 0. -/
theorem rtp_setup_returned (env : SockEnv) (remote : SockAddr) (type cport tport : Int)
    (s s1 : RtpState) (sport : Int)
    (h : rtp_setup env remote type cport tport s = .returned sport s1) :
    s.running = 0 ∧ s1.running = 1 ∧ s1.please_shutdown = 0 := by
  unfold rtp_setup at h
  by_cases hr : s.running = 0
  · simp only [hr, ne_eq, not_true_eq_false, if_false] at h
    split at h
    · exact absurd h (by simp)
    · injection h with _ hs
      subst hs
      exact ⟨hr, rfl, rfl⟩
  · simp [hr] at h

/-- When `rtp_shutdown` returns, it was called with `running` set and leaves
`running = 0` and the shutdown flag 1. -/
theorem rtp_shutdown_returned (s s1 : RtpState)
    (h : rtp_shutdown s = .returned () s1) :
    s.running ≠ 0 ∧ s1.running = 0 ∧ s1.please_shutdown = 1 := by
  unfold rtp_shutdown at h
  by_cases hr : s.running = 0
  · simp [hr] at h
  · simp only [hr, if_false] at h
    injection h with _ hs
    subst hs
    exact ⟨hr, rfl, rfl⟩

/-- With `running` clear and the sockets permitting, `rtp_setup` does not
reach `die`. -/
theorem rtp_setup_idle_not_aborted (env : SockEnv) (remote : SockAddr) (type cport tport : Int)
    (s : RtpState) (hr : s.running = 0) (hperm : sockets_permit env type) :
    (rtp_setup env remote type cport tport s).aborted = false := by
  unfold rtp_setup
  by_cases ht : type = 0
  · simp only [sockets_permit, ht, ne_eq, not_true_eq_false, if_false] at hperm
    simp only [hr, ht, ne_eq, not_true_eq_false, if_false]
    obtain ⟨s1, h1⟩ := bind_port_permitted env
      { s.emit (.debug 1 "rtp_setup: cport=%d tport=%d") with
        rtp_client := { remote with port := (cport % 65536).toNat } } hperm.1 hperm.2
    rw [h1]
    rfl
  · simp only [sockets_permit, ht, ne_eq, not_false_eq_true, if_true] at hperm
    simp only [hr, ht, ne_eq, not_true_eq_false, not_false_eq_true, if_true, if_false]
    obtain ⟨s1, h1⟩ := bind_tcp_port_permitted env
      { s.emit (.debug 1 "rtp_setup: cport=%d tport=%d") with
        rtp_client := { remote with port := (cport % 65536).toNat } } hperm.1 hperm.2
    rw [h1]
    rfl

/-- The lifecycle over any run of calls none of which aborts, from a state
with `running` 0 (a setup is due) or 1 (a shutdown is due). -/
theorem run_calls_alternates (calls : List Call) :
    ∀ (s : RtpState) (states : List RtpState), run_calls s calls = some states →
      (s.running = 0 → lifecycle_alternates true calls states)
      ∧ (s.running = 1 → lifecycle_alternates false calls states) := by
  induction calls with
  | nil =>
    intro s states h
    simp only [run_calls, Option.some.injEq] at h
    subst h
    exact ⟨fun _ => trivial, fun _ => trivial⟩
  | cons c cs ih =>
    intro s states h
    unfold run_calls at h
    cases hc : run_call s c with
    | none => rw [hc] at h; exact absurd h (by simp)
    | some s1 =>
      rw [hc] at h
      simp only at h
      cases hrest : run_calls s1 cs with
      | none => rw [hrest] at h; exact absurd h (by simp)
      | some rest =>
        rw [hrest] at h
        simp only [Option.some.injEq] at h
        subst h
        obtain ⟨ih0, ih1⟩ := ih s1 rest hrest
        cases c with
        | setup env remote type cport tport =>
          simp only [run_call] at hc
          cases hs : rtp_setup env remote type cport tport s with
          | died msg s2 => rw [hs] at hc; exact absurd hc (by simp)
          | returned sport s2 =>
            rw [hs] at hc
            simp only [Option.some.injEq] at hc
            subst hc
            obtain ⟨g0, g1, g2⟩ := rtp_setup_returned _ _ _ _ _ _ _ _ hs
            refine ⟨fun _ => ⟨g1, g2, ih1 g1⟩, fun h1 => ?_⟩
            rw [g0] at h1
            exact absurd h1 (by decide)
        | shutdown =>
          simp only [run_call] at hc
          cases hs : rtp_shutdown s with
          | died msg s2 => rw [hs] at hc; exact absurd hc (by simp)
          | returned u s2 =>
            rw [hs] at hc
            simp only [Option.some.injEq] at hc
            subst hc
            obtain ⟨g0, g1, g2⟩ := rtp_shutdown_returned _ _ hs
            refine ⟨fun h0 => absurd h0 g0, fun _ => ⟨g1, g2, ih0 g1⟩⟩

/-- In an alternating run every state has `running` 0 or 1. -/
theorem lifecycle_alternates_running (calls : List Call) :
    ∀ (b : Bool) (states : List RtpState), lifecycle_alternates b calls states →
      ∀ st ∈ states, st.running = 0 ∨ st.running = 1 := by
  induction calls with
  | nil =>
    intro b states h st hst
    cases states with
    | nil => simp at hst
    | cons x xs => cases b <;> simp [lifecycle_alternates] at h
  | cons c cs ih =>
    intro b states h st hst
    cases states with
    | nil => simp at hst
    | cons x xs =>
      cases b <;> cases c <;> simp only [lifecycle_alternates] at h
      · obtain ⟨h1, _, h3⟩ := h
        rcases List.mem_cons.mp hst with e | e
        · subst e; exact Or.inl h1
        · exact ih _ _ h3 st e
      · obtain ⟨h1, _, h3⟩ := h
        rcases List.mem_cons.mp hst with e | e
        · subst e; exact Or.inr h1
        · exact ih _ _ h3 st e

/-- C17: starting with `running = 0`, over every sequence of `rtp_setup` and
`rtp_shutdown` calls none of which aborts, the calls alternate beginning with
`rtp_setup`, each `rtp_setup` leaves `running = 1` and the shutdown flag 0,
each `rtp_shutdown` leaves `running = 0` and the shutdown flag 1, `running`
is always 0 or 1, and in every state with `running = 0` a new `rtp_setup` is
accepted, sockets permitting. -/
theorem lifecycle_state_machine (calls : List Call) (s : RtpState) (states : List RtpState)
    (hidle : s.running = 0) (hrun : run_calls s calls = some states) :
    lifecycle_alternates true calls states
    ∧ (∀ st ∈ states, st.running = 0 ∨ st.running = 1)
    ∧ (∀ st ∈ states, st.running = 0 →
        ∀ (env : SockEnv) (remote : SockAddr) (type cport tport : Int),
          sockets_permit env type →
            (rtp_setup env remote type cport tport st).aborted = false) := by
  have h := (run_calls_alternates calls s states hrun).1 hidle
  exact ⟨h, lifecycle_alternates_running calls true states h,
    fun st _ h0 env remote type cport tport hp =>
      rtp_setup_idle_not_aborted env remote type cport tport st h0 hp⟩

/-! ## Stream frame reader: offsets stored to -/

/-- Offsets `n, n+1, ...` of two runs stored end to end. -/
theorem offsets_append (n : Int) (a b : Nat) :
    (List.range a).map (fun (k : Nat) => n + (k : Int))
        ++ (List.range b).map (fun (k : Nat) => n + (a : Int) + (k : Int))
      = (List.range (a + b)).map (fun (k : Nat) => n + (k : Int)) := by
  rw [List.range_add, List.map_append, List.map_map]
  congr 1
  apply List.map_congr_left
  intro k _
  simp only [Function.comp_apply, Nat.cast_add]
  ring

/-- Under the conditions of `read_loop_data`, the offsets the loop stores to
are `n, n+1, ...`, one per byte it had to read. -/
theorem read_loop_data_written (fuel : Nat) :
    ∀ (target n : Int) (st : TcpState) (chunks : List (List Nat)) (tail : List StreamEvent)
      (want extra : List Nat),
      st.stream = chunks.map StreamEvent.data ++ tail →
      (∀ c ∈ chunks, c ≠ []) →
      chunks.flatten = want ++ extra →
      (want.length : Int) = target - n →
      stream_weight st.stream < fuel →
      ∀ (st1 : TcpState), read_loop fuel target n st = some (true, st1) →
        st1.written
          = st.written ++ (List.range want.length).map (fun (k : Nat) => n + (k : Int)) := by
  induction fuel with
  | zero => intro _ _ _ _ _ _ _ _ _ _ _ h; omega
  | succ fuel ih =>
    intro target n st chunks tail want extra hs hne hflat hlen hw st1 hrun
    unfold read_loop at hrun
    by_cases hn : n = target
    · have hw0 : want = [] := by
        apply List.eq_nil_of_length_eq_zero; omega
      subst hw0
      simp only [hn, if_true, Option.some.injEq, Prod.mk.injEq, true_and] at hrun
      subst hrun
      simp
    · have hwpos : 0 < want.length := by omega
      have hlen1 : (target - n).toNat = want.length := by omega
      cases chunks with
      | nil =>
        simp at hflat
        rw [hflat.1] at hwpos
        simp at hwpos
      | cons c cs =>
        have hcne : c ≠ [] := hne c (by simp)
        have hcpos : 0 < c.length := List.length_pos.mpr hcne
        have hs1 : st.stream = .data c :: (cs.map StreamEvent.data ++ tail) := by simpa using hs
        have hflat1 : c ++ cs.flatten = want ++ extra := by simpa using hflat
        rw [hs1] at hw
        simp only [stream_weight] at hw
        simp only [hn, if_false, hs1, hlen1, stream_recv] at hrun
        by_cases hc : c.length ≤ want.length
        · have hc0 : ¬ ((c.length : Int) = 0) := by omega
          have hdrop : cs.flatten = want.drop c.length ++ extra := by
            have := congrArg (List.drop c.length) hflat1
            simpa [List.drop_append_of_le_length hc] using this
          simp only [hc, if_true, hc0, if_false] at hrun
          have h1 := ih target (n + (c.length : Int))
              { st with
                packet := st.packet.store n c,
                written := st.written ++ (List.range c.length).map (fun (k : Nat) => n + (k : Int)),
                stream := cs.map StreamEvent.data ++ tail }
              cs tail (want.drop c.length) extra rfl
              (fun x hx => hne x (by simp [hx])) hdrop
              (by simp only [List.length_drop]; omega)
              (by rw [stream_weight_append_data] at hw ⊢; omega) st1 hrun
          rw [h1]
          simp only [List.length_drop, List.append_assoc]
          rw [offsets_append n c.length (want.length - c.length)]
          have : c.length + (want.length - c.length) = want.length := by omega
          rw [this]
        · have hc1 : want.length < c.length := by omega
          have hw0 : ¬ ((want.length : Int) = 0) := by omega
          have hdrop : c.drop want.length ++ cs.flatten = extra := by
            have := congrArg (List.drop want.length) hflat1
            simpa [List.drop_append_of_le_length (le_of_lt hc1)] using this
          simp only [hc, if_false, hw0] at hrun
          have h1 := ih target (n + (want.length : Int))
              { st with
                packet := st.packet.store n (c.take want.length),
                written := st.written ++
                  (List.range (c.take want.length).length).map (fun (k : Nat) => n + (k : Int)),
                stream := .data (c.drop want.length) :: (cs.map StreamEvent.data ++ tail) }
              (c.drop want.length :: cs) tail [] extra (by simp)
              (by
                intro x hx
                simp only [List.mem_cons] at hx
                rcases hx with hx | hx
                · subst hx
                  intro h0
                  have := congrArg List.length h0
                  simp at this
                  omega
                · exact hne x (by simp [hx]))
              (by simpa using hdrop)
              (by simp; omega)
              (by simp only [stream_weight, List.length_drop]; omega) st1 hrun
          rw [h1]
          simp only [List.length_take, List.length_nil, List.range_zero, List.map_nil,
            List.append_nil]
          rw [Nat.min_eq_left (le_of_lt hc1)]

/-! ## Stream frame reader: frames and what follows them -/

/-- A valid frame, read in full: the value returned, the buffer, the stream
left in store, and the offsets stored to (the header at 0..3, then the
payload from 0 on). -/
theorem rtp_tcp_read_chunk_valid_frame (st : TcpState) (chunks : List (List Nat))
    (tail : List StreamEvent) (hi lo : Nat) (payload extra : List Nat)
    (hs : st.stream = chunks.map StreamEvent.data ++ tail)
    (hne : ∀ c ∈ chunks, c ≠ [])
    (hflat : chunks.flatten = [0x24, 0x00, hi, lo] ++ payload ++ extra)
    (hlen : payload.length = 256 * hi + lo) :
    ∃ (st1 : TcpState) (chunks1 : List (List Nat)),
      rtp_tcp_read_chunk st = some (((256 * hi + lo : Nat) : Int), st1)
      ∧ st1.packet = (st.packet.store 0 [0x24, 0x00, hi, lo]).store 0 payload
      ∧ st1.stream = chunks1.map StreamEvent.data ++ tail
      ∧ (∀ c ∈ chunks1, c ≠ [])
      ∧ chunks1.flatten = extra
      ∧ st1.events = st.events
      ∧ st1.written = st.written ++ [0, 1, 2, 3]
          ++ (List.range (256 * hi + lo)).map (fun (k : Nat) => (k : Int)) := by
  have hflat0 : chunks.flatten = [0x24, 0x00, hi, lo] ++ (payload ++ extra) := by
    simpa using hflat
  obtain ⟨sa, ca, a1, a2, a3, a4, a5, a6⟩ :=
    read_loop_data (stream_weight st.stream + 1) 4 0 st chunks tail [0x24, 0x00, hi, lo]
      (payload ++ extra) hs hne hflat0 (by simp) (by omega)
  have a7 := read_loop_data_written (stream_weight st.stream + 1) 4 0 st chunks tail
    [0x24, 0x00, hi, lo] (payload ++ extra) hs hne hflat0 (by simp) (by omega) sa a1
  have hp0 : sa.packet 0 = 0x24 := by rw [a2]; simp [Mem.store]
  have hp1 : sa.packet 1 = 0x00 := by rw [a2]; simp [Mem.store]
  have hp2 : sa.packet 2 = hi := by rw [a2]; simp [Mem.store]
  have hp3 : sa.packet 3 = lo := by rw [a2]; simp [Mem.store]
  have hl : (payload.length : Int) = ((hi : Int) * 0x100 + (lo : Int)) - 0 := by
    rw [hlen]; push_cast; ring
  obtain ⟨sb, cb, b1, b2, b3, b4, b5, b6⟩ :=
    read_loop_data (stream_weight sa.stream + 1) ((hi : Int) * 0x100 + (lo : Int)) 0 sa ca tail
      payload extra a3 a4 a5 hl (by omega)
  have b7 := read_loop_data_written (stream_weight sa.stream + 1)
    ((hi : Int) * 0x100 + (lo : Int)) 0 sa ca tail payload extra a3 a4 a5 hl (by omega) sb b1
  refine ⟨sb, cb, ?_, by rw [b2, a2], b3, b4, b5, by rw [b6, a6], ?_⟩
  · unfold rtp_tcp_read_chunk
    rw [a1]
    simp only [hp0, hp1, hp2, hp3, and_self, if_true]
    rw [b1]
    simp only [Option.some.injEq, Prod.mk.injEq, and_true]
    push_cast; ring
  · rw [b7, a7, hlen]
    simp [List.range_succ]

/-- The frame loop of `rtp_tcp_receiver` gives the same result for any two
amounts of fuel above the weight of the stream. -/
theorem rtp_tcp_receiver_loop_fuel (fuel1 : Nat) :
    ∀ (fuel2 : Nat) (st : TcpState),
      stream_weight st.stream < fuel1 → stream_weight st.stream < fuel2 →
        rtp_tcp_receiver_loop fuel1 st = rtp_tcp_receiver_loop fuel2 st := by
  induction fuel1 with
  | zero => intro _ _ h; omega
  | succ fuel1 ih =>
    intro fuel2 st h1 h2
    cases fuel2 with
    | zero => omega
    | succ fuel2 =>
      obtain ⟨len, st1, e1, _, e3⟩ := rtp_tcp_read_chunk_returns st
      simp only [rtp_tcp_receiver_loop, e1]
      split_ifs with h0
      · rfl
      · have := e3 h0
        exact ih fuel2 _ (by simp only; omega) (by simp only; omega)

/-- After a frame (a non-zero return of `rtp_tcp_read_chunk`) the receiver
hands `packet + 12`, `len - 12` to the sink and carries on as from the state
then reached. -/
theorem rtp_tcp_receiver_next_frame (st st1 : TcpState) (len : Int)
    (h : rtp_tcp_read_chunk st = some (len, st1)) (h0 : len ≠ 0) :
    rtp_tcp_receiver st =
      rtp_tcp_receiver
        { st1 with events := st1.events ++
            [.put_tcp_packet (st1.packet.load 12 (len - 12).toNat) (len - 12)] } := by
  obtain ⟨len', st1', e1, _, e3⟩ := rtp_tcp_read_chunk_returns st
  rw [h] at e1
  simp only [Option.some.injEq, Prod.mk.injEq] at e1
  obtain ⟨e1a, e1b⟩ := e1
  subst e1a e1b
  have hw := e3 h0
  unfold rtp_tcp_receiver
  have hstep : rtp_tcp_receiver_loop (stream_weight st.stream + 1) st
      = rtp_tcp_receiver_loop (stream_weight st.stream)
          { st1 with events := st1.events ++
              [.put_tcp_packet (st1.packet.load 12 (len - 12).toNat) (len - 12)] } := by
    simp only [rtp_tcp_receiver_loop, h, h0, if_false]
  rw [hstep, rtp_tcp_receiver_loop_fuel (stream_weight st.stream) (stream_weight st1.stream + 1)
    { st1 with events := st1.events ++
        [.put_tcp_packet (st1.packet.load 12 (len - 12).toNat) (len - 12)] }
    (by show stream_weight st1.stream < _; omega)
    (by show stream_weight st1.stream < _; omega)]

/-- C11 (code at the failing inputs): in the datagram loop a failed `recv`
leaves the loop; in the stream reader it does not give `no frame`. A failed
`recv` before the header, or between header and payload, is followed by more
reading: the next `recv` stores at offset -1, `rtp_tcp_read_chunk` returns 13,
and `rtp_tcp_receiver` forwards to the sink. -/
theorem failed_stream_recv_not_no_frame :
    (rtp_receiver_iter 0 .error (fun _ => 0)).leave = some .recv_failed
    ∧ (rtp_tcp_read_chunk (fresh_tcp
          [.error, .data [0xFF, 0x24, 0x00, 0x00, 0x0D],
           .data [1, 2, 3, 4, 5, 6, 7, 8, 9, 10, 11, 12, 13]])).map
        (fun r => (r.1, r.2.written, r.2.stream))
        = some (13, [-1, 0, 1, 2, 3, 0, 1, 2, 3, 4, 5, 6, 7, 8, 9, 10, 11, 12], [])
    ∧ (rtp_tcp_receiver (fresh_tcp
          [.error, .data [0xFF, 0x24, 0x00, 0x00, 0x0D],
           .data [1, 2, 3, 4, 5, 6, 7, 8, 9, 10, 11, 12, 13]])).map
        (fun r => put_tcp_packet_calls r.events)
        = some [([13], 1)]
    ∧ (rtp_tcp_read_chunk (fresh_tcp
          [.data [0x24, 0x00, 0x00, 0x0D], .error,
           .data [0xFF, 1, 2, 3, 4, 5, 6, 7, 8, 9, 10, 11, 12, 13]])).map
        (fun r => (r.1, r.2.written, r.2.stream))
        = some (13, [0, 1, 2, 3, -1, 0, 1, 2, 3, 4, 5, 6, 7, 8, 9, 10, 11, 12], [])
    ∧ (rtp_tcp_receiver (fresh_tcp
          [.data [0x24, 0x00, 0x00, 0x0D], .error,
           .data [0xFF, 1, 2, 3, 4, 5, 6, 7, 8, 9, 10, 11, 12, 13]])).map
        (fun r => put_tcp_packet_calls r.events)
        = some [([13], 1)] := by
  decide

/-- C14 (code at the failing input): the frame with header
`[0x24,0x00,0x00,0x05]` and 5 payload bytes is read successfully (return
value 5) and `rtp_tcp_receiver` then calls `player_put_tcp_packet` with the
length `5 - 12 = -7`. -/
theorem short_frame_forwarded_with_negative_length :
    (rtp_tcp_read_chunk (fresh_tcp [.data [0x24, 0x00, 0x00, 0x05, 1, 2, 3, 4, 5]])).map
        (fun r => r.1) = some 5
    ∧ (rtp_tcp_receiver (fresh_tcp [.data [0x24, 0x00, 0x00, 0x05, 1, 2, 3, 4, 5]])).map
        (fun r => put_tcp_packet_calls r.events) = some [([], -7)] := by
  decide

/-- For a valid frame of at least 12 bytes the receiver hands the sink the
length `L - 12` and the frame bytes from offset 12 on, and carries on. -/
theorem rtp_tcp_receiver_forwards_frame (st : TcpState) (chunks : List (List Nat))
    (tail : List StreamEvent) (hi lo : Nat) (payload extra : List Nat)
    (hs : st.stream = chunks.map StreamEvent.data ++ tail)
    (hne : ∀ c ∈ chunks, c ≠ [])
    (hflat : chunks.flatten = [0x24, 0x00, hi, lo] ++ payload ++ extra)
    (hlen : payload.length = 256 * hi + lo) (h12 : 12 ≤ 256 * hi + lo) :
    ∃ (st1 : TcpState),
      rtp_tcp_read_chunk st = some (((256 * hi + lo : Nat) : Int), st1)
      ∧ rtp_tcp_receiver st =
          rtp_tcp_receiver
            { st1 with events := st.events ++
                [.put_tcp_packet (payload.drop 12) (((256 * hi + lo : Nat) : Int) - 12)] } := by
  obtain ⟨st1, chunks1, h1, h2, _, _, _, h6, _⟩ :=
    rtp_tcp_read_chunk_valid_frame st chunks tail hi lo payload extra hs hne hflat hlen
  refine ⟨st1, h1, ?_⟩
  rw [rtp_tcp_receiver_next_frame st st1 _ h1 (by omega), h6, h2]
  have hl : (((256 * hi + lo : Nat) : Int) - 12).toNat = payload.length - 12 := by omega
  have hd := Mem.load_store_drop (st.packet.store 0 [0x24, 0x00, hi, lo]) payload 12 (by omega)
  rw [hl]
  simp only [Nat.cast_ofNat] at hd
  rw [hd]

/-- C16 (as stated, refuted): a stream that supplies the valid header
`[0x24,0x00,0x00,0x00]`, announcing no payload byte, and then a second frame:
`rtp_tcp_read_chunk` returns 0, as for `no frame`, and `rtp_tcp_receiver`
leaves its loop with the second frame unread. -/
theorem zero_length_frame_is_no_frame :
    (rtp_tcp_read_chunk (fresh_tcp
          [.data [0x24, 0x00, 0x00, 0x00],
           .data [0x24, 0x00, 0x00, 0x0E, 1, 2, 3, 4, 5, 6, 7, 8, 9, 10, 11, 12, 13, 14]])).map
        (fun r => (r.1, r.2.events, r.2.stream))
        = some (0, [],
            [.data [0x24, 0x00, 0x00, 0x0E, 1, 2, 3, 4, 5, 6, 7, 8, 9, 10, 11, 12, 13, 14]])
    ∧ (rtp_tcp_receiver (fresh_tcp
          [.data [0x24, 0x00, 0x00, 0x00],
           .data [0x24, 0x00, 0x00, 0x0E, 1, 2, 3, 4, 5, 6, 7, 8, 9, 10, 11, 12, 13, 14]])).map
        (fun r => (r.events, r.stream))
        = some ([.debug 1 "RTP thread interrupted. terminating.", .close_new_sock, .close_sock,
              .output_stop],
            [.data [0x24, 0x00, 0x00, 0x0E, 1, 2, 3, 4, 5, 6, 7, 8, 9, 10, 11, 12, 13, 14]]) := by
  decide

/-- C16 (amended): whenever the stream supplies, split into non-empty pieces
in any way, a header with the valid marker followed by all the `L` payload
bytes it announces, with `1 <= L <= 16384`, `rtp_tcp_read_chunk` returns
`L`, which is not the `no frame` value 0, having taken exactly the frame from
the stream, and `rtp_tcp_receiver` makes its call to the sink and carries on
with the next frame, as from the state then reached. -/
theorem nonempty_frame_is_a_frame (st : TcpState) (chunks : List (List Nat))
    (tail : List StreamEvent) (hi lo : Nat) (payload extra : List Nat)
    (_hhi : hi < 256) (_hlo : lo < 256) (_hfit : 256 * hi + lo ≤ packet_size)
    (hpos : 1 ≤ 256 * hi + lo)
    (hs : st.stream = chunks.map StreamEvent.data ++ tail)
    (hne : ∀ c ∈ chunks, c ≠ [])
    (hflat : chunks.flatten = [0x24, 0x00, hi, lo] ++ payload ++ extra)
    (hlen : payload.length = 256 * hi + lo) :
    ∃ (st1 : TcpState) (chunks1 : List (List Nat)),
      rtp_tcp_read_chunk st = some (((256 * hi + lo : Nat) : Int), st1)
      ∧ ((256 * hi + lo : Nat) : Int) ≠ 0
      ∧ st1.stream = chunks1.map StreamEvent.data ++ tail
      ∧ chunks1.flatten = extra
      ∧ rtp_tcp_receiver st =
          rtp_tcp_receiver
            { st1 with events := st1.events ++
                [.put_tcp_packet
                  (st1.packet.load 12 (((256 * hi + lo : Nat) : Int) - 12).toNat)
                  (((256 * hi + lo : Nat) : Int) - 12)] } := by
  obtain ⟨st1, chunks1, h1, _, h3, _, h5, _, _⟩ :=
    rtp_tcp_read_chunk_valid_frame st chunks tail hi lo payload extra hs hne hflat hlen
  exact ⟨st1, chunks1, h1, by omega, h3, h5,
    rtp_tcp_receiver_next_frame st st1 _ h1 (by omega)⟩

/-- C19 (code at the failing inputs): for the valid header
`[0x24,0x00,0x40,0x01]`, announcing 16385 bytes, followed by that many bytes,
`rtp_tcp_read_chunk` stores at offset 16384, past the end of the 16384-byte
buffer; and after a failed `recv` it stores at offset -1. -/
theorem oversize_frame_stored_past_buffer :
    (∃ (st1 : TcpState),
        rtp_tcp_read_chunk
            (fresh_tcp [.data ([0x24, 0x00, 0x40, 0x01] ++ List.replicate 16385 0)])
          = some (16385, st1)
        ∧ (16384 : Int) ∈ st1.written
        ∧ ¬ ((16384 : Int) < (packet_size : Int)))
    ∧ (rtp_tcp_read_chunk (fresh_tcp [.error, .data [0xFF, 0x24, 0x00, 0x00, 0x00]])).map
        (fun r => (r.1, r.2.written)) = some (0, [-1, 0, 1, 2, 3]) := by
  refine ⟨?_, by decide⟩
  have gen : ∀ (payload : List Nat), payload.length = 16385 →
      ∃ (st1 : TcpState),
        rtp_tcp_read_chunk (fresh_tcp [.data ([0x24, 0x00, 0x40, 0x01] ++ payload)])
          = some (16385, st1)
        ∧ (16384 : Int) ∈ st1.written := by
    intro payload hp
    obtain ⟨st1, _, h1, _, _, _, _, _, h7⟩ :=
      rtp_tcp_read_chunk_valid_frame
        (fresh_tcp [.data ([0x24, 0x00, 0x40, 0x01] ++ payload)])
        [[0x24, 0x00, 0x40, 0x01] ++ payload] [] 0x40 0x01 payload [] rfl (by simp) (by simp)
        (by rw [hp])
    refine ⟨st1, h1, ?_⟩
    rw [h7]
    apply List.mem_append_right
    exact List.mem_map.mpr ⟨16384, List.mem_range.mpr (by norm_num), rfl⟩
  obtain ⟨st1, h1, h2⟩ := gen (List.replicate 16385 0) (List.length_replicate _ _)
  exact ⟨st1, h1, h2, by decide⟩

/-! ## Concrete instances -/

/-- C12 at a 32-byte resend-audio datagram with sequence bytes `0x12, 0x34`:
one packet, sequence number `0x1234`, the 16 bytes from offset 16. -/
theorem resend_audio_forwarding_witness :
    (([0x80, 0xD6, 0, 1, 0, 0, 0x12, 0x34] ++ List.replicate 8 9 ++ List.replicate 16 7).length
        ≤ 2048
      ∧ (∀ b ∈ [0x80, 0xD6, 0, 1, 0, 0, 0x12, 0x34] ++ List.replicate 8 9 ++ List.replicate 16 7,
          b < 256)
      ∧ masked_type (Mem.store (fun _ => 0) 0
          ([0x80, 0xD6, 0, 1, 0, 0, 0x12, 0x34] ++ List.replicate 8 9 ++ List.replicate 16 7))
          = 0x56
      ∧ 32 ≤ ([0x80, 0xD6, 0, 1, 0, 0, 0x12, 0x34] ++ List.replicate 8 9
          ++ List.replicate 16 7).length)
    ∧ (rtp_receiver_iter 0
          (.datagram ([0x80, 0xD6, 0, 1, 0, 0, 0x12, 0x34] ++ List.replicate 8 9
            ++ List.replicate 16 7)) (fun _ => 0)).events
        = [.put_packet 0x1234 (List.replicate 16 7) 16] :=
  ⟨by decide,
   ((resend_audio_forwarding
      ([0x80, 0xD6, 0, 1, 0, 0, 0x12, 0x34] ++ List.replicate 8 9 ++ List.replicate 16 7)
      (fun _ => 0) (by decide) (by decide) (by decide)).2 (by decide)).1⟩

/-- C13 at a 28-byte audio datagram with sequence bytes `0x12, 0x34`. -/
theorem audio_datagram_decoding_witness :
    (([0x80, 0xE0, 0x12, 0x34] ++ List.replicate 8 9 ++ List.replicate 16 7).length ≤ 2048
      ∧ (∀ b ∈ [0x80, 0xE0, 0x12, 0x34] ++ List.replicate 8 9 ++ List.replicate 16 7, b < 256)
      ∧ masked_type (Mem.store (fun _ => 0) 0
          ([0x80, 0xE0, 0x12, 0x34] ++ List.replicate 8 9 ++ List.replicate 16 7)) = 0x60
      ∧ 28 ≤ ([0x80, 0xE0, 0x12, 0x34] ++ List.replicate 8 9 ++ List.replicate 16 7).length)
    ∧ (rtp_receiver_iter 0
          (.datagram ([0x80, 0xE0, 0x12, 0x34] ++ List.replicate 8 9 ++ List.replicate 16 7))
          (fun _ => 0)).events
        = [.put_packet 0x1234 (List.replicate 16 7) 16] :=
  ⟨by decide,
   (audio_datagram_decoding
      ([0x80, 0xE0, 0x12, 0x34] ++ List.replicate 8 9 ++ List.replicate 16 7)
      (fun _ => 0) (by decide) (by decide) (by decide) (by decide)).1⟩

/-- C18 at a 28-byte audio datagram: type byte `0x60` against `0xE0`. -/
theorem marker_bit_and_byte0_ignored_witness :
    2 ≤ ([0x80, 0x60, 0x12, 0x34] ++ List.replicate 24 7).length
    ∧ (rtp_receiver_iter 0
          (.datagram (([0x80, 0x60, 0x12, 0x34] ++ List.replicate 24 7).set 1
            (([0x80, 0x60, 0x12, 0x34] ++ List.replicate 24 7).getD 1 0 ^^^ 0x80)))
          (fun _ => 0)).events
        = (rtp_receiver_iter 0 (.datagram ([0x80, 0x60, 0x12, 0x34] ++ List.replicate 24 7))
            (fun _ => 0)).events :=
  ⟨by decide,
   (marker_bit_and_byte0_ignored ([0x80, 0x60, 0x12, 0x34] ++ List.replicate 24 7)
      (fun _ => 0) (by decide)).1.1⟩

/-- C17 over setup, shutdown, setup (stream transport), shutdown from the
idle state. -/
theorem lifecycle_state_machine_witness :
    ∃ (states : List RtpState),
      (idle_session.running = 0
        ∧ run_calls idle_session
            [.setup ⟨0, 4, 0, 50000⟩ ⟨2, 0x0A000001, 0⟩ 0 6001 6002, .shutdown,
             .setup ⟨0, 4, 0, 50000⟩ ⟨2, 0x0A000001, 0⟩ 1 6001 6002, .shutdown] = some states)
      ∧ lifecycle_alternates true
          [.setup ⟨0, 4, 0, 50000⟩ ⟨2, 0x0A000001, 0⟩ 0 6001 6002, .shutdown,
           .setup ⟨0, 4, 0, 50000⟩ ⟨2, 0x0A000001, 0⟩ 1 6001 6002, .shutdown] states
      ∧ states.length = 4 :=
  ⟨_, ⟨rfl, rfl⟩,
   (lifecycle_state_machine
      [.setup ⟨0, 4, 0, 50000⟩ ⟨2, 0x0A000001, 0⟩ 0 6001 6002, .shutdown,
       .setup ⟨0, 4, 0, 50000⟩ ⟨2, 0x0A000001, 0⟩ 1 6001 6002, .shutdown]
      idle_session _ rfl rfl).1, rfl⟩

/-- C16 (amended) at a 14-byte frame followed by a second frame. -/
theorem nonempty_frame_is_a_frame_witness :
    ((0 < 256 ∧ 14 < 256 ∧ 256 * 0 + 14 ≤ packet_size ∧ 1 ≤ 256 * 0 + 14)
      ∧ (fresh_tcp [.data [0x24, 0x00, 0x00, 0x0E, 1, 2, 3, 4, 5, 6, 7],
            .data [8, 9, 10, 11, 12, 13, 14, 0x24, 0x00, 0x00, 0x01, 5]]).stream
          = [[0x24, 0x00, 0x00, 0x0E, 1, 2, 3, 4, 5, 6, 7],
             [8, 9, 10, 11, 12, 13, 14, 0x24, 0x00, 0x00, 0x01, 5]].map StreamEvent.data ++ []
      ∧ (∀ c ∈ [[0x24, 0x00, 0x00, 0x0E, 1, 2, 3, 4, 5, 6, 7],
             [8, 9, 10, 11, 12, 13, 14, 0x24, 0x00, 0x00, 0x01, 5]], c ≠ [])
      ∧ [[0x24, 0x00, 0x00, 0x0E, 1, 2, 3, 4, 5, 6, 7],
          [8, 9, 10, 11, 12, 13, 14, 0x24, 0x00, 0x00, 0x01, 5]].flatten
          = [0x24, 0x00, 0, 14] ++ [1, 2, 3, 4, 5, 6, 7, 8, 9, 10, 11, 12, 13, 14]
              ++ [0x24, 0x00, 0x00, 0x01, 5]
      ∧ [1, 2, 3, 4, 5, 6, 7, 8, 9, 10, 11, 12, 13, 14].length = 256 * 0 + 14)
    ∧ ∃ (st1 : TcpState) (chunks1 : List (List Nat)),
        rtp_tcp_read_chunk
            (fresh_tcp [.data [0x24, 0x00, 0x00, 0x0E, 1, 2, 3, 4, 5, 6, 7],
              .data [8, 9, 10, 11, 12, 13, 14, 0x24, 0x00, 0x00, 0x01, 5]])
          = some (14, st1)
        ∧ chunks1.flatten = [0x24, 0x00, 0x00, 0x01, 5] :=
  ⟨by decide,
   match nonempty_frame_is_a_frame
      (fresh_tcp [.data [0x24, 0x00, 0x00, 0x0E, 1, 2, 3, 4, 5, 6, 7],
        .data [8, 9, 10, 11, 12, 13, 14, 0x24, 0x00, 0x00, 0x01, 5]])
      [[0x24, 0x00, 0x00, 0x0E, 1, 2, 3, 4, 5, 6, 7],
       [8, 9, 10, 11, 12, 13, 14, 0x24, 0x00, 0x00, 0x01, 5]] [] 0 14
      [1, 2, 3, 4, 5, 6, 7, 8, 9, 10, 11, 12, 13, 14] [0x24, 0x00, 0x00, 0x01, 5]
      (by decide) (by decide) (by decide) (by decide) rfl (by decide) rfl rfl with
   | ⟨st1, chunks1, h1, _, _, h4, _⟩ => ⟨st1, chunks1, h1, h4⟩⟩

end Shairport
